import Mathlib

/-!
Verification of the tensor `Split` operator kernel
(`tensorflow/core/kernels/split_op.cc`).

The embedding models a tensor as a shape (`List Nat` of dimension sizes)
together with its row-major flat data (`List α`).  The kernel's int32
arithmetic (`SetDims`) is modelled with explicit two's-complement wrapping
on `Int`; 64-bit quantities (dimension sizes, the dim-0 fast-path `delta`)
are modelled exactly, since every realistic value fits in int64.
-/

set_option maxRecDepth 8000

namespace SplitOp

/-- Two's-complement narrowing of an integer into the `int32` range,
modelling the C++ `int32` arithmetic used in `SplitOpBase::SetDims`. -/
def wrap32 (x : Int) : Int := (x + 2 ^ 31) % 2 ^ 32 - 2 ^ 31

/-- `SplitOpBase::SetDims` (split_op.cc:93-107): collapse `shape` around
`splitDim` into `(prefix_dim_size, split_dim_size, suffix_dim_size)`.
The C++ accumulators are `int32`: each loop iteration multiplies the
`int32` accumulator by a 64-bit dimension size and narrows the product
back to `int32`; `split_dim_size` is likewise narrowed from `int64`. -/
def SetDims (shape : List Nat) (splitDim : Nat) : Int × Int × Int :=
  ((shape.take splitDim).foldl (fun (acc : Int) (d : Nat) => wrap32 (acc * (d : Int))) 1,
    wrap32 ((shape.getD splitDim 0 : Int)),
    (shape.drop (splitDim + 1)).foldl (fun (acc : Int) (d : Nat) => wrap32 (acc * (d : Int))) 1)

/-- Row-major flat index of a multi-index `idx` in a tensor of shape `s`
(the stride of a coordinate is the product of the dimensions after it). -/
def flatIndex : List Nat → List Nat → Nat
  | _ :: ds, c :: cs => c * ds.prod + flatIndex ds cs
  | _, _ => 0

/-- Modelled from the spec: `Tensor::Slice(dim0_start, dim0_limit)` (tensor
framework, outside this file's source) returns, per the spec (§4.1, §8), a
contiguous sub-range of the input's first dimension: the shape keeps the
trailing dimensions and the leading dimension becomes `limit - start`, the
data being the corresponding contiguous row range of the row-major buffer. -/
def TensorSlice (shape : List Nat) (data : List α) (start limit : Nat) :
    List Nat × List α :=
  ((limit - start) :: shape.drop 1,
    (data.drop (start * (shape.drop 1).prod)).take ((limit - start) * (shape.drop 1).prod))

/-- Modelled from the spec: the strided-copy primitive `functor::Split`
(declared in split_lib.h, implementation outside this file's source)
copies, per the spec (§2, §4.3), the 3D view of the input — viewed with
dimensions `(P, S, U)` — at start offset `(0, i·d, 0)` with extents
`(P, d, U)` into output `i`, in row-major order. -/
def splitSliceData (dflt : α) (data : List α) (S U d i P : Nat) : List α :=
  (List.range P).flatMap fun p =>
    (List.range d).flatMap fun s =>
      (List.range U).map fun u =>
        data.getD (p * (S * U) + ((i * d + s) * U + u)) dflt

/-- Result of `SplitOpBase::ComputeEasyCases`: an `InvalidArgument` error,
a finished result (`done = true` in the source, with the outputs already
set), or fall-through to the general path. -/
inductive EasyResult (α : Type) where
  | err : EasyResult α
  | done : List (List Nat × List α) → EasyResult α
  | fallThrough : EasyResult α
  deriving DecidableEq

/-- `SplitOpBase::ComputeEasyCases` (split_op.cc:44-91): validation of
`split_dim`, `num_split` and divisibility, then the `num_split == 1`
identity case and the dim-0 aligned-slice case.  `aligned` abstracts the
external alignment predicate `IsInnerDimsSizeAligned<T>` (ops_util.h,
outside this file's source; the spec leaves the alignment policy to the
implementer).  The dim-0 `delta` is computed in `int64`, i.e. exactly. -/
def ComputeEasyCases (splitDim numSplit : Int) (shape : List Nat)
    (data : List α) (aligned : Bool) : EasyResult α :=
  if ¬ (0 ≤ splitDim ∧ splitDim < (shape.length : Int)) then .err
  else if ¬ (0 < numSplit) then .err
  else if ¬ ((shape.getD splitDim.toNat 0 : Int) % numSplit = 0) then .err
  else if numSplit = 1 then .done [(shape, data)]
  else if splitDim = 0 ∧ aligned then
    let delta := shape.getD 0 0 / numSplit.toNat
    .done ((List.range numSplit.toNat).map fun i =>
      TensorSlice shape data (i * delta) ((i + 1) * delta))
  else .fallThrough

/-- Outcome of a `Compute` call: `InvalidArgument` status (no outputs set),
a `CHECK` failure in `Tensor::shaped` (the 3D reshape's element-count
check), or the ordered list of outputs, each a shape with its data. -/
inductive Outcome (α : Type) where
  | invalidArgument : Outcome α
  | checkFailed : Outcome α
  | ok : List (List Nat × List α) → Outcome α
  deriving DecidableEq

/-- `SplitOpCPU::Compute` (split_op.cc:116-165): easy cases first; on the
general path, collapse dimensions with `SetDims`, reshape the input to a
3D view (`Tensor::shaped` CHECKs that the collapsed sizes are a valid
shape for the input's element count), then for each output `i` allocate a
buffer of the input's shape with the split dimension reduced to
`split_dim_size / num_split` and, when the copy guard
`prefix_dim_size * split_dim_output_size * suffix_dim_size > 0` — an
`int32` product (l. 148), modelled with two's-complement wrapping at each
multiplication — is positive, invoke the strided-copy primitive on the
slice starting at `(0, i·d, 0)`; otherwise the output is left as
allocated (no copy). -/
def SplitOpCPU (dflt : α) (splitDim numSplit : Int) (shape : List Nat)
    (data : List α) (aligned : Bool) : Outcome α :=
  match ComputeEasyCases splitDim numSplit shape data aligned with
  | .err => .invalidArgument
  | .done outs => .ok outs
  | .fallThrough =>
    let k := splitDim.toNat
    let pre := (SetDims shape k).1
    let sd := (SetDims shape k).2.1
    let suf := (SetDims shape k).2.2
    if 0 ≤ pre ∧ 0 ≤ sd ∧ 0 ≤ suf ∧ pre * sd * suf = (shape.prod : Int) then
      let n := numSplit.toNat
      let d := sd.toNat / n
      let outShape := shape.set k d
      .ok ((List.range n).map fun i =>
        (outShape,
          if 0 < wrap32 (wrap32 (pre * (d : Int)) * suf) then
            splitSliceData dflt data sd.toNat suf.toNat d i pre.toNat
          else []))
    else .checkFailed

/-- Modelled from the spec: the batched GPU kernel behind
`SplitOpGPULaunch::Run` (split_op_gpu.cu.cc, outside this file's source)
writes, per the spec (§4.4 step 5), every element of every output by
decomposing the output's flat index into `(p, s, u)` coordinates and
reading the corresponding element of the input slice through the staged
output-pointer array. -/
def gpuKernelOutput (dflt : α) (data : List α) (S U d i P : Nat) : List α :=
  (List.range (P * d * U)).map fun j =>
    let p := j / (d * U)
    let s := (j / U) % d
    let u := j % U
    data.getD ((p * S + (i * d + s)) * U + u) dflt

/-- `SplitOpGPU::Compute` (split_op.cc:184-244): easy cases first; on the
general path, collapse dimensions with `SetDims`, allocate all outputs
(recording their pointers), return right after allocation when the zero
test `prefix_dim_size * split_dim_output_size * suffix_dim_size == 0` —
an `int32` product (l. 226), modelled with two's-complement wrapping at
each multiplication — holds, and otherwise launch the single batched
kernel that populates all outputs. -/
def SplitOpGPU (dflt : α) (splitDim numSplit : Int) (shape : List Nat)
    (data : List α) (aligned : Bool) : Outcome α :=
  match ComputeEasyCases splitDim numSplit shape data aligned with
  | .err => .invalidArgument
  | .done outs => .ok outs
  | .fallThrough =>
    let k := splitDim.toNat
    let pre := (SetDims shape k).1
    let sd := (SetDims shape k).2.1
    let suf := (SetDims shape k).2.2
    let n := numSplit.toNat
    let d := sd.toNat / n
    let outShape := shape.set k d
    if wrap32 (wrap32 (pre * (d : Int)) * suf) = 0 then
      .ok ((List.range n).map fun _ => (outShape, []))
    else
      .ok ((List.range n).map fun i =>
        (outShape, gpuKernelOutput dflt data sd.toNat suf.toNat d i pre.toNat))

/-- Concatenation of equal-shaped pieces along the collapsed split axis:
with the pieces viewed as 3D arrays of dimensions `(P, d, U)`, block `p`
of the result is the concatenation of every piece's block `p`.  This is
the spec's round-trip concatenation (§8), stated over the collapsed view. -/
def concatAlong (P d U : Nat) (pieces : List (List α)) : List α :=
  (List.range P).flatMap fun p =>
    pieces.flatMap fun t => (t.drop (p * (d * U))).take (d * U)

/-! ### Arithmetic lemmas about `wrap32` and `SetDims` -/

theorem wrap32_eq_self {x : Int} (h0 : -2 ^ 31 ≤ x) (h1 : x < 2 ^ 31) :
    wrap32 x = x := by
  unfold wrap32; omega

theorem wrap32_congr {x y : Int} (h : x % 2 ^ 32 = y % 2 ^ 32) :
    wrap32 x = wrap32 y := by
  unfold wrap32; omega

theorem wrap32_emod (x : Int) : wrap32 x % 2 ^ 32 = x % 2 ^ 32 := by
  unfold wrap32; omega

theorem wrap32_mul_left (a b : Int) : wrap32 (wrap32 a * b) = wrap32 (a * b) := by
  refine wrap32_congr ?_
  rw [Int.mul_emod, wrap32_emod, ← Int.mul_emod]

theorem foldl_wrap32_mul (l : List Nat) :
    ∀ acc : Int,
      l.foldl (fun (a : Int) (d : Nat) => wrap32 (a * (d : Int))) (wrap32 acc) =
        wrap32 (acc * (l.prod : Int)) := by
  induction l with
  | nil => intro acc; simp
  | cons d l ih =>
    intro acc
    have h1 : List.foldl (fun (a : Int) (d : Nat) => wrap32 (a * (d : Int)))
          (wrap32 acc) (d :: l) =
        List.foldl (fun (a : Int) (d : Nat) => wrap32 (a * (d : Int)))
          (wrap32 (wrap32 acc * (d : Int))) l := rfl
    rw [h1, wrap32_mul_left, ih (acc * (d : Int))]
    congr 1
    rw [List.prod_cons]
    push_cast
    ring

theorem wrap32_one : wrap32 1 = 1 := by decide

theorem wrap32_zero : wrap32 0 = 0 := by decide

theorem foldl_wrap32_mul_one (l : List Nat) :
    l.foldl (fun (a : Int) (d : Nat) => wrap32 (a * (d : Int))) 1 =
      wrap32 ((l.prod : Int)) := by
  rw [← wrap32_one, foldl_wrap32_mul, one_mul]

/-- `SetDims` always returns the mathematical prefix product, split
dimension size and suffix product reduced to the int32 range by
two's-complement wrapping. -/
theorem SetDims_eq_wrap (shape : List Nat) (k : Nat) :
    SetDims shape k =
      (wrap32 ((shape.take k).prod : Int),
        wrap32 ((shape.getD k 0 : Int)),
        wrap32 ((shape.drop (k + 1)).prod : Int)) := by
  unfold SetDims
  rw [foldl_wrap32_mul_one, foldl_wrap32_mul_one]

/-- When the three collapsed sizes fit in int32, `SetDims` returns them
exactly. -/
theorem SetDims_eq_exact (shape : List Nat) (k : Nat)
    (hP : (shape.take k).prod < 2 ^ 31)
    (hS : shape.getD k 0 < 2 ^ 31)
    (hU : (shape.drop (k + 1)).prod < 2 ^ 31) :
    SetDims shape k =
      (((shape.take k).prod : Int), (shape.getD k 0 : Int),
        ((shape.drop (k + 1)).prod : Int)) := by
  rw [SetDims_eq_wrap]
  rw [wrap32_eq_self (by omega) (by exact_mod_cast hP),
    wrap32_eq_self (by omega) (by exact_mod_cast hS),
    wrap32_eq_self (by omega) (by exact_mod_cast hU)]

/-! ### List lemmas: flat maps of constant-length blocks, indexing -/

theorem flatMap_length_const {β : Type} (l : List β) (g : β → List α) (B : Nat)
    (h : ∀ b ∈ l, (g b).length = B) :
    (l.flatMap g).length = l.length * B := by
  induction l with
  | nil => simp
  | cons b l ih =>
    simp only [List.flatMap_cons, List.length_append, List.length_cons]
    rw [h b (by simp), ih (fun x hx => h x (by simp [hx]))]
    ring

theorem flatMap_getD_const {β : Type} (l : List β) (g : β → List α) (B : Nat)
    (dflt : α) (h : ∀ b ∈ l, (g b).length = B) :
    ∀ q r, (hq : q < l.length) → r < B →
      (l.flatMap g).getD (q * B + r) dflt = (g (l.get ⟨q, hq⟩)).getD r dflt := by
  induction l with
  | nil => intro q r hq _; exact absurd hq (by simp)
  | cons b l ih =>
    intro q r hq hr
    match q with
    | 0 =>
      simp only [List.flatMap_cons, Nat.zero_mul, Nat.zero_add, List.get]
      rw [List.getD_eq_getElem?_getD, List.getElem?_append_left
        (by rw [h b (by simp)]; exact hr), ← List.getD_eq_getElem?_getD]
    | q + 1 =>
      have hq' : q < l.length := by simpa using hq
      simp only [List.flatMap_cons, List.get]
      have harith : (q + 1) * B + r = (g b).length + (q * B + r) := by
        rw [h b (by simp)]; ring
      rw [List.getD_eq_getElem?_getD, harith, List.getElem?_append_right (by omega),
        Nat.add_sub_cancel_left, ← List.getD_eq_getElem?_getD,
        ih (fun x hx => h x (by simp [hx])) q r hq' hr]

theorem flatMap_range_getD (f : Nat → List α) (n B : Nat) (dflt : α)
    (h : ∀ m < n, (f m).length = B) {q r : Nat} (hq : q < n) (hr : r < B) :
    ((List.range n).flatMap f).getD (q * B + r) dflt = (f q).getD r dflt := by
  have h' : ∀ b ∈ List.range n, (f b).length = B := by
    intro b hb; exact h b (List.mem_range.mp hb)
  rw [flatMap_getD_const (List.range n) f B dflt h' q r (by simpa using hq) hr]
  congr 1
  simp

theorem getD_map_range (f : Nat → α) (n : Nat) (dflt : α) {j : Nat} (hj : j < n) :
    ((List.range n).map f).getD j dflt = f j := by
  rw [List.getD_eq_getElem _ _ (by simpa using hj)]
  simp

theorem getD_drop_take (l : List α) (a b : Nat) (dflt : α) {j : Nat} (hj : j < b) :
    ((l.drop a).take b).getD j dflt = l.getD (a + j) dflt := by
  rw [List.getD_eq_getElem?_getD, List.getElem?_take_of_lt hj, List.getElem?_drop,
    ← List.getD_eq_getElem?_getD]

theorem set_getD_self (l : List α) (k : Nat) (hk : k < l.length) (dflt : α) :
    l.set k (l.getD k dflt) = l := by
  rw [List.getD_eq_getElem _ _ hk]
  apply List.ext_getElem (by simp)
  intro i h1 h2
  rcases eq_or_ne i k with rfl | hne
  · simp
  · rw [List.getElem_set_ne (by omega)]

/-! ### Row-major indexing lemmas -/

theorem flatIndex_cons (a : Nat) (ds : List Nat) (c : Nat) (cs : List Nat) :
    flatIndex (a :: ds) (c :: cs) = c * ds.prod + flatIndex ds cs := rfl

/-- The product of a shape decomposes around any in-range axis. -/
theorem prod_decomp (s : List Nat) (k : Nat) (hk : k < s.length) :
    s.prod = (s.take k).prod * (s.getD k 0 * (s.drop (k + 1)).prod) := by
  conv_lhs => rw [← List.prod_take_mul_prod_drop s k]
  rw [List.drop_eq_getElem_cons hk, List.prod_cons, List.getD_eq_getElem _ _ hk]

/-- Row-major flat indices decompose around any axis: the part of the
multi-index before `k` addresses a block of size `(s.drop k).prod`. -/
theorem flatIndex_split (k : Nat) : ∀ (s idx : List Nat), idx.length = s.length →
    flatIndex s idx =
      flatIndex (s.take k) (idx.take k) * (s.drop k).prod +
        flatIndex (s.drop k) (idx.drop k) := by
  induction k with
  | zero => intro s idx _; simp [flatIndex]
  | succ k ih =>
    intro s idx h
    match s, idx with
    | [], [] => simp [flatIndex]
    | [], c :: idx => exact absurd h (by simp)
    | a :: s, [] => exact absurd h (by simp)
    | a :: s, c :: idx =>
      have h' : idx.length = s.length := by simpa using h
      simp only [List.take_succ_cons, List.drop_succ_cons]
      rw [flatIndex_cons, flatIndex_cons, ih s idx h']
      conv_lhs => rw [← List.prod_take_mul_prod_drop s k]
      ring

/-- A componentwise-bounded multi-index has a flat index below the shape's
element count. -/
theorem flatIndex_lt_prod : ∀ (s idx : List Nat), idx.length = s.length →
    (∀ j, j < s.length → idx.getD j 0 < s.getD j 0) →
    flatIndex s idx < s.prod := by
  intro s
  induction s with
  | nil => intro idx _ _; simp [flatIndex]
  | cons a s ih =>
    intro idx h hb
    match idx with
    | [] => exact absurd h (by simp)
    | c :: idx =>
      have h' : idx.length = s.length := by simpa using h
      have hb' : ∀ j, j < s.length → idx.getD j 0 < s.getD j 0 := by
        intro j hj
        have := hb (j + 1) (by simpa using hj)
        simpa using this
      have hc : c < a := by simpa using hb 0 (by simp)
      have hfi := ih idx h' hb'
      rw [flatIndex_cons, List.prod_cons]
      calc c * s.prod + flatIndex s idx < c * s.prod + s.prod := by omega
        _ = (c + 1) * s.prod := by ring
        _ ≤ a * s.prod := Nat.mul_le_mul_right _ hc

theorem block_lt {s d u U : Nat} (hs : s < d) (hu : u < U) :
    s * U + u < d * U := by
  have h1 : (s + 1) * U = s * U + U := by ring
  calc s * U + u < (s + 1) * U := by omega
    _ ≤ d * U := Nat.mul_le_mul_right _ hs

/-! ### The strided-copy slice: length and elementwise description -/

theorem splitSliceData_length (dflt : α) (data : List α) (S U d i P : Nat) :
    (splitSliceData dflt data S U d i P).length = P * (d * U) := by
  unfold splitSliceData
  rw [flatMap_length_const _ _ (d * U)]
  · simp
  · intro b _
    rw [flatMap_length_const _ _ U]
    · simp
    · intro s _
      simp

theorem splitSliceData_getD (dflt : α) (data : List α) (S U d i P : Nat)
    {p s u : Nat} (hp : p < P) (hs : s < d) (hu : u < U) :
    (splitSliceData dflt data S U d i P).getD (p * (d * U) + (s * U + u)) dflt =
      data.getD (p * (S * U) + ((i * d + s) * U + u)) dflt := by
  unfold splitSliceData
  have hinner : ∀ m, m < P →
      ((List.range d).flatMap fun s =>
        (List.range U).map fun u =>
          data.getD (m * (S * U) + ((i * d + s) * U + u)) dflt).length = d * U := by
    intro m _
    rw [flatMap_length_const _ _ U]
    · simp
    · intro b _
      simp
  rw [flatMap_range_getD _ P (d * U) dflt hinner hp (block_lt hs hu)]
  rw [flatMap_range_getD _ d U dflt (fun m _ => by simp) hs hu]
  rw [getD_map_range _ _ _ hu]

/-- The spec-modelled GPU kernel computes exactly the same data as the
spec-modelled CPU strided-copy slice. -/
theorem gpuKernelOutput_eq (dflt : α) (data : List α) (S U d i P : Nat) :
    gpuKernelOutput dflt data S U d i P = splitSliceData dflt data S U d i P := by
  apply List.ext_getElem
  · rw [splitSliceData_length]
    unfold gpuKernelOutput
    simp [Nat.mul_assoc]
  · intro j h1 h2
    have hlen : j < P * d * U := by
      unfold gpuKernelOutput at h1
      simpa using h1
    have hlen' : j < P * (d * U) := by
      rw [← Nat.mul_assoc]
      exact hlen
    have hdU : 0 < d * U := by
      rcases Nat.eq_zero_or_pos (d * U) with h | h
      · rw [h, Nat.mul_zero] at hlen'
        omega
      · exact h
    have hU : 0 < U := by
      rcases Nat.eq_zero_or_pos U with h | h
      · rw [h, Nat.mul_zero] at hdU
        omega
      · exact h
    have hp : j / (d * U) < P := by
      apply Nat.div_lt_of_lt_mul
      rw [Nat.mul_comm]
      exact hlen'
    have hsb : (j / U) % d < d := Nat.mod_lt _ (by
      rcases Nat.eq_zero_or_pos d with h | h
      · rw [h, Nat.zero_mul] at hdU
        omega
      · exact h)
    have hub : j % U < U := Nat.mod_lt _ hU
    have hdecomp : j = j / (d * U) * (d * U) + ((j / U) % d * U + j % U) := by
      have e1 : j % (d * U) / U = (j / U) % d := by
        rw [Nat.mul_comm d U, Nat.mod_mul_right_div_self]
      have e2 : j % (d * U) % U = j % U := Nat.mod_mod_of_dvd _ ⟨d, Nat.mul_comm d U⟩
      have e3 := Nat.div_add_mod (j % (d * U)) U
      have e4 := Nat.div_add_mod j (d * U)
      calc j = d * U * (j / (d * U)) + j % (d * U) := e4.symm
        _ = d * U * (j / (d * U)) + (U * (j % (d * U) / U) + j % (d * U) % U) := by
            rw [e3]
        _ = j / (d * U) * (d * U) + (j % (d * U) / U * U + j % (d * U) % U) := by
            ring
        _ = j / (d * U) * (d * U) + ((j / U) % d * U + j % U) := by
            rw [e1, e2]
    have lhs_getD : (gpuKernelOutput dflt data S U d i P).getD j dflt =
        data.getD ((j / (d * U) * S + (i * d + (j / U) % d)) * U + j % U) dflt := by
      unfold gpuKernelOutput
      rw [getD_map_range _ _ _ hlen]
    rw [← List.getD_eq_getElem _ dflt h1, ← List.getD_eq_getElem _ dflt h2, lhs_getD]
    conv_rhs => rw [hdecomp]
    rw [splitSliceData_getD dflt data S U d i P hp hsb hub]
    congr 1
    ring

/-! ### Easy-case and general-path normal forms -/

theorem easy_err {α : Type} (splitDim numSplit : Int) (shape : List Nat)
    (data : List α) (aligned : Bool)
    (h : ¬ (0 ≤ splitDim ∧ splitDim < (shape.length : Int)) ∨ numSplit ≤ 0 ∨
      (shape.getD splitDim.toNat 0 : Int) % numSplit ≠ 0) :
    ComputeEasyCases splitDim numSplit shape data aligned = .err := by
  unfold ComputeEasyCases
  rcases h with h | h | h
  · rw [if_pos h]
  · by_cases h1 : ¬ (0 ≤ splitDim ∧ splitDim < (shape.length : Int))
    · rw [if_pos h1]
    · rw [if_neg h1, if_pos (by omega)]
  · by_cases h1 : ¬ (0 ≤ splitDim ∧ splitDim < (shape.length : Int))
    · rw [if_pos h1]
    · rw [if_neg h1]
      by_cases h2 : ¬ (0 < numSplit)
      · rw [if_pos h2]
      · rw [if_neg h2, if_pos h]

theorem easy_identity {α : Type} (splitDim : Int) (shape : List Nat)
    (data : List α) (aligned : Bool)
    (h0 : 0 ≤ splitDim) (h1 : splitDim < (shape.length : Int)) :
    ComputeEasyCases splitDim 1 shape data aligned = .done [(shape, data)] := by
  unfold ComputeEasyCases
  rw [if_neg (not_not_intro ⟨h0, h1⟩), if_neg (not_not_intro one_pos),
    if_neg (not_not_intro (Int.emod_one _)), if_pos rfl]

theorem easy_dim0 {α : Type} (numSplit : Int) (shape : List Nat) (data : List α)
    (hrank : 0 < shape.length) (hn : 1 < numSplit)
    (hdvd : (shape.getD 0 0 : Int) % numSplit = 0) :
    ComputeEasyCases 0 numSplit shape data true =
      .done ((List.range numSplit.toNat).map fun i =>
        TensorSlice shape data (i * (shape.getD 0 0 / numSplit.toNat))
          ((i + 1) * (shape.getD 0 0 / numSplit.toNat))) := by
  unfold ComputeEasyCases
  simp only [Int.toNat_zero]
  rw [if_neg (not_not_intro ⟨le_refl 0, by exact_mod_cast hrank⟩),
    if_neg (not_not_intro (by omega)), if_neg (not_not_intro hdvd),
    if_neg (by omega), if_pos (by simp)]

theorem easy_fallThrough {α : Type} (splitDim numSplit : Int) (shape : List Nat)
    (data : List α) (aligned : Bool)
    (h0 : 0 ≤ splitDim) (h1 : splitDim < (shape.length : Int))
    (hn : 0 < numSplit) (hdvd : (shape.getD splitDim.toNat 0 : Int) % numSplit = 0)
    (hn1 : numSplit ≠ 1) (hpath : ¬ (splitDim = 0 ∧ aligned = true)) :
    ComputeEasyCases splitDim numSplit shape data aligned = .fallThrough := by
  unfold ComputeEasyCases
  rw [if_neg (not_not_intro ⟨h0, h1⟩), if_neg (not_not_intro hn),
    if_neg (not_not_intro hdvd), if_neg hn1, if_neg hpath]

/-- General-path normal form of the CPU executor (collapsed sizes fitting
in int32): one output per `i`, with the reduced shape, the slice data when
the int32 copy guard is positive and an untouched (empty) buffer
otherwise. -/
theorem cpu_general {α : Type} (dflt : α) (splitDim numSplit : Int)
    (shape : List Nat) (data : List α) (aligned : Bool)
    (h0 : 0 ≤ splitDim) (h1 : splitDim < (shape.length : Int))
    (hn : 0 < numSplit) (hdvd : (shape.getD splitDim.toNat 0 : Int) % numSplit = 0)
    (hn1 : numSplit ≠ 1) (hpath : ¬ (splitDim = 0 ∧ aligned = true))
    (hP : (shape.take splitDim.toNat).prod < 2 ^ 31)
    (hS : shape.getD splitDim.toNat 0 < 2 ^ 31)
    (hU : (shape.drop (splitDim.toNat + 1)).prod < 2 ^ 31) :
    SplitOpCPU dflt splitDim numSplit shape data aligned =
      .ok ((List.range numSplit.toNat).map fun i =>
        (shape.set splitDim.toNat (shape.getD splitDim.toNat 0 / numSplit.toNat),
          if 0 < wrap32 (wrap32 (((shape.take splitDim.toNat).prod : Int) *
              ((shape.getD splitDim.toNat 0 / numSplit.toNat : Nat) : Int)) *
              (((shape.drop (splitDim.toNat + 1)).prod : Nat) : Int)) then
            splitSliceData dflt data (shape.getD splitDim.toNat 0)
              ((shape.drop (splitDim.toNat + 1)).prod)
              (shape.getD splitDim.toNat 0 / numSplit.toNat) i
              ((shape.take splitDim.toNat).prod)
          else [])) := by
  have hk : splitDim.toNat < shape.length := by omega
  unfold SplitOpCPU
  rw [easy_fallThrough splitDim numSplit shape data aligned h0 h1 hn hdvd hn1 hpath]
  dsimp only
  rw [SetDims_eq_exact shape splitDim.toNat hP hS hU]
  dsimp only
  rw [if_pos ⟨Int.natCast_nonneg _, Int.natCast_nonneg _, Int.natCast_nonneg _, by
    rw [prod_decomp shape splitDim.toNat hk]
    push_cast
    ring⟩]
  simp only [Int.toNat_natCast]

/-- General-path normal form of the GPU executor: one output per `i`,
with the reduced shape, empty when the int32 zero test of split_op.cc:226
fires (outputs allocated but unwritten) and the batched kernel's slice
data otherwise. -/
theorem gpu_general {α : Type} (dflt : α) (splitDim numSplit : Int)
    (shape : List Nat) (data : List α) (aligned : Bool)
    (h0 : 0 ≤ splitDim) (h1 : splitDim < (shape.length : Int))
    (hn : 0 < numSplit) (hdvd : (shape.getD splitDim.toNat 0 : Int) % numSplit = 0)
    (hn1 : numSplit ≠ 1) (hpath : ¬ (splitDim = 0 ∧ aligned = true))
    (hP : (shape.take splitDim.toNat).prod < 2 ^ 31)
    (hS : shape.getD splitDim.toNat 0 < 2 ^ 31)
    (hU : (shape.drop (splitDim.toNat + 1)).prod < 2 ^ 31) :
    SplitOpGPU dflt splitDim numSplit shape data aligned =
      .ok ((List.range numSplit.toNat).map fun i =>
        (shape.set splitDim.toNat (shape.getD splitDim.toNat 0 / numSplit.toNat),
          if wrap32 (wrap32 (((shape.take splitDim.toNat).prod : Int) *
              ((shape.getD splitDim.toNat 0 / numSplit.toNat : Nat) : Int)) *
              (((shape.drop (splitDim.toNat + 1)).prod : Nat) : Int)) = 0 then []
          else
            splitSliceData dflt data (shape.getD splitDim.toNat 0)
              ((shape.drop (splitDim.toNat + 1)).prod)
              (shape.getD splitDim.toNat 0 / numSplit.toNat) i
              ((shape.take splitDim.toNat).prod))) := by
  unfold SplitOpGPU
  rw [easy_fallThrough splitDim numSplit shape data aligned h0 h1 hn hdvd hn1 hpath]
  dsimp only
  rw [SetDims_eq_exact shape splitDim.toNat hP hS hU]
  dsimp only
  simp only [Int.toNat_natCast]
  by_cases hz : wrap32 (wrap32 (((shape.take splitDim.toNat).prod : Int) *
      ((shape.getD splitDim.toNat 0 / numSplit.toNat : Nat) : Int)) *
      (((shape.drop (splitDim.toNat + 1)).prod : Nat) : Int)) = 0
  · rw [if_pos hz]
    refine congrArg Outcome.ok (List.map_congr_left ?_)
    intro i _
    rw [if_pos hz]
  · rw [if_neg hz]
    refine congrArg Outcome.ok (List.map_congr_left ?_)
    intro i _
    rw [if_neg hz, gpuKernelOutput_eq]

/-! ### getD lemmas for take/drop/set -/

theorem getD_take (l : List α) (k : Nat) (dflt : α) {j : Nat} (hj : j < k) :
    (l.take k).getD j dflt = l.getD j dflt := by
  rw [List.getD_eq_getElem?_getD, List.getElem?_take_of_lt hj,
    ← List.getD_eq_getElem?_getD]

theorem getD_drop (l : List α) (a j : Nat) (dflt : α) :
    (l.drop a).getD j dflt = l.getD (a + j) dflt := by
  rw [List.getD_eq_getElem?_getD, List.getElem?_drop, ← List.getD_eq_getElem?_getD]

theorem getD_set_ne (l : List α) (k : Nat) (v dflt : α) {j : Nat} (h : k ≠ j) :
    (l.set k v).getD j dflt = l.getD j dflt := by
  rw [List.getD_eq_getElem?_getD, List.getElem?_set_ne h, ← List.getD_eq_getElem?_getD]

theorem getD_set_self (l : List α) (k : Nat) (v dflt : α) (h : k < l.length) :
    (l.set k v).getD k dflt = v := by
  rw [List.getD_eq_getElem?_getD, List.getElem?_set_self h]
  rfl

theorem take_set_self (l : List α) (k : Nat) (v : α) :
    (l.set k v).take k = l.take k := by
  rw [List.set_take, List.set_eq_of_length_le]
  rw [List.length_take]
  omega

theorem drop_succ_set (l : List α) (k : Nat) (v : α) :
    (l.set k v).drop (k + 1) = l.drop (k + 1) := by
  rw [List.drop_set, if_pos (by omega)]

theorem set_drop_eq (shape : List α) (k : Nat) (d : α) (hk : k < shape.length) :
    (shape.set k d).drop k = d :: shape.drop (k + 1) := by
  have hk' : k < (shape.set k d).length := by
    rw [List.length_set]
    exact hk
  rw [List.drop_eq_getElem_cons hk', List.getElem_set_self, drop_succ_set]

theorem shape_drop_eq (shape : List Nat) (k : Nat) (hk : k < shape.length) :
    shape.drop k = shape.getD k 0 :: shape.drop (k + 1) := by
  rw [List.drop_eq_getElem_cons hk, List.getD_eq_getElem _ _ hk]

/-- Element count of the reduced output shape, in collapsed form. -/
theorem set_prod (shape : List Nat) (k d : Nat) (hk : k < shape.length) :
    (shape.set k d).prod = (shape.take k).prod * (d * (shape.drop (k + 1)).prod) := by
  conv_lhs => rw [← List.prod_take_mul_prod_drop (shape.set k d) k]
  rw [take_set_self, set_drop_eq shape k d hk, List.prod_cons]

/-- When the output element count fits in int32, the int32 copy-guard
product of split_op.cc:148/:226 wraps at no step and equals the exact
product. -/
theorem guard32_eq_exact (P d U : Nat) (h : P * d * U < 2 ^ 31) :
    wrap32 (wrap32 ((P : Int) * (d : Int)) * (U : Int)) =
      ((P * d * U : Nat) : Int) := by
  rcases Nat.eq_zero_or_pos U with hU | hU
  · subst hU
    rw [Nat.cast_zero, Int.mul_zero, wrap32_zero, Nat.mul_zero, Nat.cast_zero]
  · have hPd : P * d < 2 ^ 31 := by
      have hle : P * d ≤ P * d * U := Nat.le_mul_of_pos_right _ hU
      omega
    have e1 : (P : Int) * (d : Int) = ((P * d : Nat) : Int) := by
      push_cast
      ring
    have e2 : ((P * d : Nat) : Int) * (U : Int) = ((P * d * U : Nat) : Int) := by
      push_cast
      ring
    rw [e1]
    rw [show wrap32 ((P * d : Nat) : Int) = ((P * d : Nat) : Int) from
      wrap32_eq_self (by omega) (by exact_mod_cast hPd)]
    rw [e2]
    exact wrap32_eq_self (by omega) (by exact_mod_cast h)

/-- A zero factor annihilates the int32 copy-guard product despite any
intermediate wrapping. -/
theorem guard32_eq_zero (P d U : Nat) (h : P * d * U = 0) :
    wrap32 (wrap32 ((P : Int) * (d : Int)) * (U : Int)) = 0 := by
  rcases Nat.mul_eq_zero.mp h with h2 | h2
  · have e1 : (P : Int) * (d : Int) = 0 := by
      exact_mod_cast congrArg (fun m : Nat => (m : Int)) h2
    rw [e1, wrap32_zero, Int.zero_mul, wrap32_zero]
  · rw [h2, Nat.cast_zero, Int.mul_zero, wrap32_zero]

/-- Under the fit condition, the int32-guarded copy always equals the
slice data (an empty 3D box yields the empty list anyway). -/
theorem slice_if_eq32 (dflt : α) (data : List α) (S U d i P : Nat)
    (h : P * d * U < 2 ^ 31) :
    (if 0 < wrap32 (wrap32 ((P : Int) * (d : Int)) * (U : Int)) then
        splitSliceData dflt data S U d i P
      else []) = splitSliceData dflt data S U d i P := by
  rw [guard32_eq_exact P d U h]
  by_cases h0 : 0 < P * d * U
  · rw [if_pos (by exact_mod_cast h0)]
  · rw [if_neg (by exact_mod_cast h0)]
    symm
    rw [← List.length_eq_zero, splitSliceData_length, ← Nat.mul_assoc]
    omega

/-- Under the fit condition, the GPU zero test likewise reduces to the
slice data. -/
theorem gpu_slice_if_eq32 (dflt : α) (data : List α) (S U d i P : Nat)
    (h : P * d * U < 2 ^ 31) :
    (if wrap32 (wrap32 ((P : Int) * (d : Int)) * (U : Int)) = 0 then []
      else splitSliceData dflt data S U d i P) =
      splitSliceData dflt data S U d i P := by
  rw [guard32_eq_exact P d U h]
  by_cases h0 : P * d * U = 0
  · rw [if_pos (by exact_mod_cast h0)]
    symm
    rw [← List.length_eq_zero, splitSliceData_length, ← Nat.mul_assoc]
    omega
  · rw [if_neg (by exact_mod_cast h0)]

/-- On the general path, the output element at a multi-index equals the
input element at the same multi-index with the split-axis coordinate
shifted by `i·d`. -/
theorem general_element {α : Type} (dflt : α) (data : List α) (shape : List Nat)
    (k : Nat) (hk : k < shape.length) (d i : Nat) (idx : List Nat)
    (hlen : idx.length = shape.length)
    (hbound : ∀ j, j < shape.length → idx.getD j 0 < (shape.set k d).getD j 0) :
    (splitSliceData dflt data (shape.getD k 0) ((shape.drop (k + 1)).prod) d i
        ((shape.take k).prod)).getD (flatIndex (shape.set k d) idx) dflt =
      data.getD (flatIndex shape (idx.set k (i * d + idx.getD k 0))) dflt := by
  have hkidx : k < idx.length := by omega
  have hkset : k < (idx.set k (i * d + idx.getD k 0)).length := by
    rw [List.length_set]
    exact hkidx
  have hgetset : (idx.set k (i * d + idx.getD k 0))[k] = i * d + idx.getD k 0 :=
    List.getElem_set_self hkset
  have hidxk : idx[k] = idx.getD k 0 := (List.getD_eq_getElem _ _ hkidx).symm
  have hidx_out : flatIndex (shape.set k d) idx =
      flatIndex (shape.take k) (idx.take k) * (d * (shape.drop (k + 1)).prod) +
        (idx.getD k 0 * (shape.drop (k + 1)).prod +
          flatIndex (shape.drop (k + 1)) (idx.drop (k + 1))) := by
    rw [flatIndex_split k (shape.set k d) idx (by rw [List.length_set]; exact hlen)]
    rw [take_set_self, set_drop_eq shape k d hk, List.drop_eq_getElem_cons hkidx,
      flatIndex_cons, List.prod_cons, hidxk]
  have hidx_in : flatIndex shape (idx.set k (i * d + idx.getD k 0)) =
      flatIndex (shape.take k) (idx.take k) *
          (shape.getD k 0 * (shape.drop (k + 1)).prod) +
        ((i * d + idx.getD k 0) * (shape.drop (k + 1)).prod +
          flatIndex (shape.drop (k + 1)) (idx.drop (k + 1))) := by
    rw [flatIndex_split k shape (idx.set k (i * d + idx.getD k 0))
      (by rw [List.length_set]; omega)]
    rw [take_set_self, shape_drop_eq shape k hk, List.drop_eq_getElem_cons hkset,
      hgetset, drop_succ_set, flatIndex_cons, List.prod_cons]
  have hc : idx.getD k 0 < d := by
    have hb := hbound k hk
    rwa [getD_set_self shape k d 0 hk] at hb
  have hp : flatIndex (shape.take k) (idx.take k) < (shape.take k).prod := by
    apply flatIndex_lt_prod
    · rw [List.length_take, List.length_take]
      omega
    · intro j hj
      have hjk : j < k := by
        rw [List.length_take] at hj
        omega
      rw [getD_take _ _ _ hjk, getD_take _ _ _ hjk]
      have hb := hbound j (by omega)
      rwa [getD_set_ne shape k d 0 (by omega)] at hb
  have hu : flatIndex (shape.drop (k + 1)) (idx.drop (k + 1)) <
      (shape.drop (k + 1)).prod := by
    apply flatIndex_lt_prod
    · rw [List.length_drop, List.length_drop]
      omega
    · intro j hj
      rw [List.length_drop] at hj
      rw [getD_drop, getD_drop]
      have hb := hbound (k + 1 + j) (by omega)
      rwa [getD_set_ne shape k d 0 (by omega)] at hb
  rw [hidx_out, hidx_in,
    splitSliceData_getD dflt data (shape.getD k 0) ((shape.drop (k + 1)).prod)
      d i ((shape.take k).prod) hp hc hu]

/-! ### Round-trip concatenation -/

theorem splitSliceData_getD_flat (dflt : α) (data : List α) (S U d i P : Nat)
    {p r : Nat} (hp : p < P) (hr : r < d * U) :
    (splitSliceData dflt data S U d i P).getD (p * (d * U) + r) dflt =
      data.getD (p * (S * U) + (i * (d * U) + r)) dflt := by
  have hU : 0 < U := by
    rcases Nat.eq_zero_or_pos U with h | h
    · rw [h, Nat.mul_zero] at hr
      omega
    · exact h
  have hs : r / U < d := by
    apply Nat.div_lt_of_lt_mul
    rw [Nat.mul_comm]
    exact hr
  have hu : r % U < U := Nat.mod_lt _ hU
  have hrdecomp : r = r / U * U + r % U := by
    calc r = U * (r / U) + r % U := (Nat.div_add_mod r U).symm
      _ = r / U * U + r % U := by ring
  have hidx : p * (S * U) + ((i * d + r / U) * U + r % U) =
      p * (S * U) + (i * (d * U) + r) := by
    conv_rhs => rw [hrdecomp]
    ring
  conv_lhs => rw [hrdecomp]
  rw [splitSliceData_getD dflt data S U d i P hp hs hu, hidx]

/-- If `n` pieces each look, block by block, like the successive
`(d, U)`-slabs of `data` viewed as `(P, S, U)` with `S = n·d`, then
concatenating them along the collapsed split axis reconstructs `data`. -/
theorem concat_blocks {α : Type} (dflt : α) (data : List α) (P S U d n : Nat)
    (hS : S = n * d) (hlen : data.length = P * (S * U))
    (pieces : List (List α)) (hplen : pieces.length = n)
    (hpl : ∀ i, i < n → (pieces.getD i []).length = P * (d * U))
    (hpe : ∀ i p r, i < n → p < P → r < d * U →
      (pieces.getD i []).getD (p * (d * U) + r) dflt =
        data.getD (p * (S * U) + (i * (d * U) + r)) dflt) :
    concatAlong P d U pieces = data := by
  have hblock : ∀ p, p < P → ∀ t ∈ pieces,
      ((t.drop (p * (d * U))).take (d * U)).length = d * U := by
    intro p hp t ht
    obtain ⟨i, hi, rfl⟩ := List.getElem_of_mem ht
    have htl : (pieces.getD i []).length = P * (d * U) := hpl i (by omega)
    rw [List.getD_eq_getElem _ _ hi] at htl
    rw [List.length_take, List.length_drop, htl]
    have h2 : (p + 1) * (d * U) ≤ P * (d * U) := Nat.mul_le_mul_right _ (by omega)
    have h3 : (p + 1) * (d * U) = p * (d * U) + d * U := by ring
    omega
  have hinner_len : ∀ p, p < P →
      (pieces.flatMap (fun t => (t.drop (p * (d * U))).take (d * U))).length =
        n * (d * U) := by
    intro p hp
    rw [flatMap_length_const _ _ (d * U) (hblock p hp), hplen]
  have hconc_len : (concatAlong P d U pieces).length = data.length := by
    unfold concatAlong
    rw [flatMap_length_const _ _ (n * (d * U))]
    · rw [List.length_range, hlen, hS]
      ring
    · intro b hb
      exact hinner_len b (List.mem_range.mp hb)
  apply List.ext_getElem hconc_len
  intro J h1 h2
  rw [← List.getD_eq_getElem _ dflt h1, ← List.getD_eq_getElem _ dflt h2]
  have hSU : S * U = n * (d * U) := by
    rw [hS]
    ring
  have hJ : J < P * (n * (d * U)) := by
    rw [hlen, hSU] at h2
    exact h2
  have hB : 0 < n * (d * U) := by
    rcases Nat.eq_zero_or_pos (n * (d * U)) with h | h
    · rw [h, Nat.mul_zero] at hJ
      omega
    · exact h
  have hdU : 0 < d * U := by
    rcases Nat.eq_zero_or_pos (d * U) with h | h
    · rw [h, Nat.mul_zero] at hB
      omega
    · exact h
  have hqP : J / (n * (d * U)) < P := by
    apply Nat.div_lt_of_lt_mul
    rw [Nat.mul_comm]
    exact hJ
  have hr0B : J % (n * (d * U)) < n * (d * U) := Nat.mod_lt _ hB
  have hin : J % (n * (d * U)) / (d * U) < n :=
    Nat.div_lt_of_lt_mul (by rw [Nat.mul_comm (d * U) n]; exact hr0B)
  have hrdU : J % (n * (d * U)) % (d * U) < d * U := Nat.mod_lt _ hdU
  have hiplen : J % (n * (d * U)) / (d * U) < pieces.length := by omega
  have hJdecomp : J = J / (n * (d * U)) * (n * (d * U)) +
      (J % (n * (d * U)) / (d * U) * (d * U) + J % (n * (d * U)) % (d * U)) := by
    have e1 := Nat.div_add_mod J (n * (d * U))
    have e2 := Nat.div_add_mod (J % (n * (d * U))) (d * U)
    calc J = n * (d * U) * (J / (n * (d * U))) + J % (n * (d * U)) := e1.symm
      _ = n * (d * U) * (J / (n * (d * U))) +
          (d * U * (J % (n * (d * U)) / (d * U)) + J % (n * (d * U)) % (d * U)) := by
          rw [e2]
      _ = J / (n * (d * U)) * (n * (d * U)) +
          (J % (n * (d * U)) / (d * U) * (d * U) + J % (n * (d * U)) % (d * U)) := by
          ring
  have hL : (concatAlong P d U pieces).getD J dflt =
      (pieces.getD (J % (n * (d * U)) / (d * U)) []).getD
        (J / (n * (d * U)) * (d * U) + J % (n * (d * U)) % (d * U)) dflt := by
    unfold concatAlong
    conv_lhs => rw [hJdecomp]
    rw [flatMap_range_getD _ P (n * (d * U)) dflt (fun m hm => hinner_len m hm)
      hqP (block_lt hin hrdU)]
    rw [flatMap_getD_const pieces _ (d * U) dflt (hblock _ hqP) _ _ hiplen hrdU]
    rw [getD_drop_take _ _ _ _ hrdU]
    rw [List.get_eq_getElem, ← List.getD_eq_getElem pieces [] hiplen]
  rw [hL, hpe _ _ _ hin hqP hrdU, hSU, ← hJdecomp]

/-! ### Claims -/

/-- C3: if split_dim is out of range, num_split ≤ 0, or the split-axis size
is not evenly divisible by num_split, the operation fails with
InvalidArgument; the checks precede the identity case, the dim-0 fast path
and the general path, and on failure no output is set and no output buffer
is allocated (the outcome carries no outputs), on both executors. -/
theorem claim_C3 {α : Type} (dflt : α) (splitDim numSplit : Int)
    (shape : List Nat) (data : List α) (aligned : Bool)
    (h : ¬ (0 ≤ splitDim ∧ splitDim < (shape.length : Int)) ∨ numSplit ≤ 0 ∨
      (shape.getD splitDim.toNat 0 : Int) % numSplit ≠ 0) :
    ComputeEasyCases splitDim numSplit shape data aligned = .err ∧
    SplitOpCPU dflt splitDim numSplit shape data aligned = .invalidArgument ∧
    SplitOpGPU dflt splitDim numSplit shape data aligned = .invalidArgument := by
  have he := easy_err splitDim numSplit shape data aligned h
  refine ⟨he, ?_, ?_⟩
  · unfold SplitOpCPU
    rw [he]
  · unfold SplitOpGPU
    rw [he]

theorem claim_C3_witness :
    (¬ ((0 : Int) ≤ -1 ∧ (-1 : Int) < (([2, 6] : List Nat).length : Int)) ∨
      (2 : Int) ≤ 0 ∨
      ((([2, 6] : List Nat).getD (-1 : Int).toNat 0 : Int) % 2 ≠ 0)) ∧
    (ComputeEasyCases (-1) 2 [2, 6] (List.range 12) false = .err ∧
      SplitOpCPU 0 (-1) 2 [2, 6] (List.range 12) false = .invalidArgument ∧
      SplitOpGPU 0 (-1) 2 [2, 6] (List.range 12) false = .invalidArgument) :=
  ⟨by decide, claim_C3 0 (-1) 2 [2, 6] (List.range 12) false (by decide)⟩

/-- C4: after validation, num_split == 1 makes both executors return the
single output equal to the input itself (the easy-case identity
assignment), without the dim-0 fast path or the general path running. -/
theorem claim_C4 {α : Type} (dflt : α) (splitDim : Int) (shape : List Nat)
    (data : List α) (aligned : Bool)
    (h0 : 0 ≤ splitDim) (h1 : splitDim < (shape.length : Int)) :
    ComputeEasyCases splitDim 1 shape data aligned = .done [(shape, data)] ∧
    SplitOpCPU dflt splitDim 1 shape data aligned = .ok [(shape, data)] ∧
    SplitOpGPU dflt splitDim 1 shape data aligned = .ok [(shape, data)] := by
  have he := easy_identity splitDim shape data aligned h0 h1
  refine ⟨he, ?_, ?_⟩
  · unfold SplitOpCPU
    rw [he]
  · unfold SplitOpGPU
    rw [he]

theorem claim_C4_witness :
    ((0 : Int) ≤ 0 ∧ (0 : Int) < (([3] : List Nat).length : Int)) ∧
    (ComputeEasyCases 0 1 [3] [5, 6, 7] true = .done [([3], [5, 6, 7])] ∧
      SplitOpCPU 0 0 1 [3] [5, 6, 7] true = .ok [([3], [5, 6, 7])] ∧
      SplitOpGPU 0 0 1 [3] [5, 6, 7] true = .ok [([3], [5, 6, 7])]) :=
  ⟨by decide, claim_C4 0 0 [3] [5, 6, 7] true (by decide) (by decide)⟩

/-- C5: after validation with num_split > 1, split_dim == 0 and aligned
inner dimensions, each output i is the dim-0 slice of the input covering
rows [i·delta, (i+1)·delta) with delta = dim0/num_split: the shape is the
input's with dim 0 reduced to delta, and the data the corresponding
contiguous row range, on both executors. -/
theorem claim_C5 {α : Type} (dflt : α) (numSplit : Int) (shape : List Nat)
    (data : List α)
    (hrank : 0 < shape.length) (hn : 1 < numSplit)
    (hdvd : (shape.getD 0 0 : Int) % numSplit = 0) :
    SplitOpCPU dflt 0 numSplit shape data true =
      .ok ((List.range numSplit.toNat).map fun i =>
        TensorSlice shape data (i * (shape.getD 0 0 / numSplit.toNat))
          ((i + 1) * (shape.getD 0 0 / numSplit.toNat))) ∧
    SplitOpGPU dflt 0 numSplit shape data true =
      .ok ((List.range numSplit.toNat).map fun i =>
        TensorSlice shape data (i * (shape.getD 0 0 / numSplit.toNat))
          ((i + 1) * (shape.getD 0 0 / numSplit.toNat))) ∧
    ∀ i : Nat,
      TensorSlice shape data (i * (shape.getD 0 0 / numSplit.toNat))
          ((i + 1) * (shape.getD 0 0 / numSplit.toNat)) =
        ((shape.getD 0 0 / numSplit.toNat) :: shape.drop 1,
          (data.drop (i * (shape.getD 0 0 / numSplit.toNat) * (shape.drop 1).prod)).take
            ((shape.getD 0 0 / numSplit.toNat) * (shape.drop 1).prod)) := by
  have he := easy_dim0 numSplit shape data hrank hn hdvd
  refine ⟨?_, ?_, ?_⟩
  · unfold SplitOpCPU
    rw [he]
  · unfold SplitOpGPU
    rw [he]
  · intro i
    unfold TensorSlice
    generalize shape.getD 0 0 / numSplit.toNat = δ
    have hδ : (i + 1) * δ - i * δ = δ := by
      have h : (i + 1) * δ = i * δ + δ := by ring
      omega
    rw [hδ]

theorem claim_C5_witness :
    (0 < ([6, 2] : List Nat).length ∧ (1 : Int) < 3 ∧
      ((([6, 2] : List Nat).getD 0 0 : Int) % 3 = 0)) ∧
    (SplitOpCPU 0 0 3 [6, 2] (List.range 12) true =
      .ok ((List.range (3 : Int).toNat).map fun i =>
        TensorSlice [6, 2] (List.range 12)
          (i * (([6, 2] : List Nat).getD 0 0 / (3 : Int).toNat))
          ((i + 1) * (([6, 2] : List Nat).getD 0 0 / (3 : Int).toNat))) ∧
     SplitOpGPU 0 0 3 [6, 2] (List.range 12) true =
      .ok ((List.range (3 : Int).toNat).map fun i =>
        TensorSlice [6, 2] (List.range 12)
          (i * (([6, 2] : List Nat).getD 0 0 / (3 : Int).toNat))
          ((i + 1) * (([6, 2] : List Nat).getD 0 0 / (3 : Int).toNat))) ∧
     ∀ i : Nat,
      TensorSlice [6, 2] (List.range 12)
          (i * (([6, 2] : List Nat).getD 0 0 / (3 : Int).toNat))
          ((i + 1) * (([6, 2] : List Nat).getD 0 0 / (3 : Int).toNat)) =
        ((([6, 2] : List Nat).getD 0 0 / (3 : Int).toNat) :: ([6, 2] : List Nat).drop 1,
          ((List.range 12).drop
              (i * (([6, 2] : List Nat).getD 0 0 / (3 : Int).toNat) *
                (([6, 2] : List Nat).drop 1).prod)).take
            ((([6, 2] : List Nat).getD 0 0 / (3 : Int).toNat) *
              (([6, 2] : List Nat).drop 1).prod))) :=
  ⟨⟨by decide, by decide, by decide⟩,
    claim_C5 0 3 [6, 2] (List.range 12) (by decide) (by decide) (by decide)⟩

/-- C6 (as stated) is false: for shape [65536, 65536, 3] and split_dim 2
the prefix product 65536·65536 = 2^32 overflows int32 and `SetDims`
returns 0 for it, not the mathematical product. -/
theorem claim_C6_counterexample :
    SetDims [65536, 65536, 3] 2 = (0, 3, 1) ∧
    (([65536, 65536, 3] : List Nat).take 2).prod = 4294967296 ∧
    SetDims [65536, 65536, 3] 2 ≠
      ((((([65536, 65536, 3] : List Nat).take 2).prod : Nat) : Int),
        ((([65536, 65536, 3] : List Nat).getD 2 0 : Nat) : Int),
        ((((([65536, 65536, 3] : List Nat).drop 3).prod : Nat)) : Int)) := by
  refine ⟨by decide, by decide, ?_⟩
  intro h
  have h1 : SetDims [65536, 65536, 3] 2 = (0, 3, 1) := by decide
  rw [h1] at h
  have h2 : ((0 : Int), (3 : Int), (1 : Int)).1 =
      ((((([65536, 65536, 3] : List Nat).take 2).prod : Nat) : Int),
        ((([65536, 65536, 3] : List Nat).getD 2 0 : Nat) : Int),
        ((((([65536, 65536, 3] : List Nat).drop 3).prod : Nat)) : Int)).1 := by
    rw [h]
  revert h2
  decide

/-- C6 amended: `SetDims` computes in int32 wrap-around arithmetic, so it
returns exactly (prefix product, split size, suffix product) whenever each
of the three fits in int32; it is total (no failure branch). -/
theorem claim_C6 (shape : List Nat) (k : Nat) (_hk : k < shape.length)
    (hP : (shape.take k).prod < 2 ^ 31) (hS : shape.getD k 0 < 2 ^ 31)
    (hU : (shape.drop (k + 1)).prod < 2 ^ 31) :
    SetDims shape k =
      (((shape.take k).prod : Int), (shape.getD k 0 : Int),
        ((shape.drop (k + 1)).prod : Int)) :=
  SetDims_eq_exact shape k hP hS hU

theorem claim_C6_witness :
    (2 < ([6, 2, 5] : List Nat).length ∧
      (([6, 2, 5] : List Nat).take 2).prod < 2 ^ 31 ∧
      ([6, 2, 5] : List Nat).getD 2 0 < 2 ^ 31 ∧
      (([6, 2, 5] : List Nat).drop 3).prod < 2 ^ 31) ∧
    SetDims [6, 2, 5] 2 =
      (((([6, 2, 5] : List Nat).take 2).prod : Int),
        (([6, 2, 5] : List Nat).getD 2 0 : Int),
        ((([6, 2, 5] : List Nat).drop 3).prod : Int)) :=
  ⟨⟨by decide, by decide, by decide, by decide⟩,
    claim_C6 [6, 2, 5] 2 (by decide) (by decide) (by decide) (by decide)⟩

/-- C10: `SetDims` folds every 64-bit dimension size into int32
accumulators, so the returned triple is always the mathematical prefix
product, split size and suffix product reduced by two's-complement
wrapping into int32 — unlike the dim-0 fast path, whose row offset
delta = dim0/num_split is computed in int64, i.e. exactly, for every
dimension size. -/
theorem claim_C10 :
    (∀ (shape : List Nat) (k : Nat),
      SetDims shape k =
        (wrap32 ((shape.take k).prod : Int), wrap32 ((shape.getD k 0 : Int)),
          wrap32 ((shape.drop (k + 1)).prod : Int))) ∧
    (∀ (α : Type) (numSplit : Int) (shape : List Nat) (data : List α),
      0 < shape.length → 1 < numSplit → (shape.getD 0 0 : Int) % numSplit = 0 →
      ComputeEasyCases 0 numSplit shape data true =
        .done ((List.range numSplit.toNat).map fun i =>
          TensorSlice shape data (i * (shape.getD 0 0 / numSplit.toNat))
            ((i + 1) * (shape.getD 0 0 / numSplit.toNat)))) :=
  ⟨fun shape k => SetDims_eq_wrap shape k,
    fun _ numSplit shape data h1 h2 h3 => easy_dim0 numSplit shape data h1 h2 h3⟩

theorem claim_C10_witness :
    SetDims [65536, 65536, 3] 2 =
      (wrap32 ((([65536, 65536, 3] : List Nat).take 2).prod : Int),
        wrap32 ((([65536, 65536, 3] : List Nat).getD 2 0 : Int)),
        wrap32 ((([65536, 65536, 3] : List Nat).drop 3).prod : Int)) ∧
    ((0 < ([4294967298, 2] : List Nat).length ∧ (1 : Int) < 2 ∧
        ((([4294967298, 2] : List Nat).getD 0 0 : Int) % 2 = 0)) ∧
      ComputeEasyCases 0 2 [4294967298, 2] ([] : List Nat) true =
        .done ((List.range (2 : Int).toNat).map fun i =>
          TensorSlice [4294967298, 2] ([] : List Nat)
            (i * (([4294967298, 2] : List Nat).getD 0 0 / (2 : Int).toNat))
            ((i + 1) * (([4294967298, 2] : List Nat).getD 0 0 / (2 : Int).toNat)))) :=
  ⟨claim_C10.1 [65536, 65536, 3] 2,
    ⟨⟨by decide, by decide, by decide⟩,
      claim_C10.2 Nat 2 [4294967298, 2] [] (by decide) (by decide) (by decide)⟩⟩

/-- C1 (as stated) is false on the code: the copy guard at
split_op.cc:148 multiplies the collapsed sizes in int32, so for shape
[65536, 65536, 4], split_dim 1, num_split 2 — a valid general-path
invocation whose per-axis collapsed sizes all fit in int32 — the guard
product 65536·32768·4 = 2^33 wraps to 0 and every copy is skipped: the
outputs are allocated but left empty, not the claimed slices (whose
element count is 65536·(32768·4) ≠ 0). -/
theorem claim_C1_counterexample :
    ((0 : Int) ≤ 1 ∧ (1 : Int) < (([65536, 65536, 4] : List Nat).length : Int) ∧
      (0 : Int) < 2 ∧
      ((([65536, 65536, 4] : List Nat).getD (1 : Int).toNat 0 : Int) % 2 = 0) ∧
      (2 : Int) ≠ 1 ∧ ¬ ((1 : Int) = 0 ∧ false = true) ∧
      (([65536, 65536, 4] : List Nat).take (1 : Int).toNat).prod < 2 ^ 31 ∧
      ([65536, 65536, 4] : List Nat).getD (1 : Int).toNat 0 < 2 ^ 31 ∧
      (([65536, 65536, 4] : List Nat).drop ((1 : Int).toNat + 1)).prod < 2 ^ 31) ∧
    SplitOpCPU (0 : Nat) 1 2 [65536, 65536, 4] ([] : List Nat) false =
      .ok [([65536, 32768, 4], []), ([65536, 32768, 4], [])] ∧
    ¬ SplitOpCPU (0 : Nat) 1 2 [65536, 65536, 4] ([] : List Nat) false =
      .ok ((List.range (2 : Int).toNat).map fun i =>
        (([65536, 65536, 4] : List Nat).set (1 : Int).toNat
            (([65536, 65536, 4] : List Nat).getD (1 : Int).toNat 0 / (2 : Int).toNat),
          splitSliceData (0 : Nat) ([] : List Nat)
            (([65536, 65536, 4] : List Nat).getD (1 : Int).toNat 0)
            ((([65536, 65536, 4] : List Nat).drop ((1 : Int).toNat + 1)).prod)
            (([65536, 65536, 4] : List Nat).getD (1 : Int).toNat 0 / (2 : Int).toNat) i
            ((([65536, 65536, 4] : List Nat).take (1 : Int).toNat).prod))) := by
  have h1 : SplitOpCPU (0 : Nat) 1 2 [65536, 65536, 4] ([] : List Nat) false =
      .ok [([65536, 32768, 4], []), ([65536, 32768, 4], [])] := by
    decide
  refine ⟨⟨by decide, by decide, by decide, by decide, by decide, by decide,
      by decide, by decide, by decide⟩, h1, ?_⟩
  intro hcontra
  rw [h1] at hcontra
  have h2 := Outcome.ok.inj hcontra
  have h3 := congrArg
    (fun l : List (List Nat × List Nat) => ((l.getD 0 ([], [])).2).length) h2
  simp only [List.getD_cons_zero, List.length_nil] at h3
  rw [getD_map_range _ _ _ (by decide : (0 : Nat) < (2 : Int).toNat)] at h3
  dsimp only at h3
  rw [splitSliceData_length] at h3
  exact absurd h3 (by decide)

/-- C1 amended: under the additional hypothesis — forced by the int32
copy guard of split_op.cc:148 — that the per-output element count
prefix·per_split·suffix fits in int32, a valid invocation on the general
path yields, for each i < num_split, an output with the input's shape
whose split dimension is reduced to `split_dim_size / num_split`, whose
data is the strided copy of the 3D input view at start offset
`(0, i·per_split, 0)` with extents `(prefix, per_split, suffix)`;
elementwise, the output at any in-bounds multi-index equals the input at
the same multi-index with the split-axis coordinate shifted by
`i·per_split`. -/
theorem claim_C1 {α : Type} (dflt : α) (splitDim numSplit : Int)
    (shape : List Nat) (data : List α) (aligned : Bool)
    (h0 : 0 ≤ splitDim) (h1 : splitDim < (shape.length : Int))
    (hn : 0 < numSplit)
    (hdvd : (shape.getD splitDim.toNat 0 : Int) % numSplit = 0)
    (hn1 : numSplit ≠ 1) (hpath : ¬ (splitDim = 0 ∧ aligned = true))
    (hP : (shape.take splitDim.toNat).prod < 2 ^ 31)
    (hS : shape.getD splitDim.toNat 0 < 2 ^ 31)
    (hU : (shape.drop (splitDim.toNat + 1)).prod < 2 ^ 31)
    (hout : (shape.take splitDim.toNat).prod *
        (shape.getD splitDim.toNat 0 / numSplit.toNat) *
        (shape.drop (splitDim.toNat + 1)).prod < 2 ^ 31) :
    SplitOpCPU dflt splitDim numSplit shape data aligned =
      .ok ((List.range numSplit.toNat).map fun i =>
        (shape.set splitDim.toNat (shape.getD splitDim.toNat 0 / numSplit.toNat),
          splitSliceData dflt data (shape.getD splitDim.toNat 0)
            ((shape.drop (splitDim.toNat + 1)).prod)
            (shape.getD splitDim.toNat 0 / numSplit.toNat) i
            ((shape.take splitDim.toNat).prod))) ∧
    (∀ i : Nat,
      (splitSliceData dflt data (shape.getD splitDim.toNat 0)
          ((shape.drop (splitDim.toNat + 1)).prod)
          (shape.getD splitDim.toNat 0 / numSplit.toNat) i
          ((shape.take splitDim.toNat).prod)).length =
        (shape.set splitDim.toNat
          (shape.getD splitDim.toNat 0 / numSplit.toNat)).prod) ∧
    (∀ (i : Nat) (idx : List Nat), idx.length = shape.length →
      (∀ j, j < shape.length →
        idx.getD j 0 <
          (shape.set splitDim.toNat
            (shape.getD splitDim.toNat 0 / numSplit.toNat)).getD j 0) →
      (splitSliceData dflt data (shape.getD splitDim.toNat 0)
          ((shape.drop (splitDim.toNat + 1)).prod)
          (shape.getD splitDim.toNat 0 / numSplit.toNat) i
          ((shape.take splitDim.toNat).prod)).getD
          (flatIndex
            (shape.set splitDim.toNat
              (shape.getD splitDim.toNat 0 / numSplit.toNat)) idx) dflt =
        data.getD
          (flatIndex shape
            (idx.set splitDim.toNat
              (i * (shape.getD splitDim.toNat 0 / numSplit.toNat) +
                idx.getD splitDim.toNat 0))) dflt) := by
  have hk : splitDim.toNat < shape.length := by omega
  refine ⟨?_, ?_, ?_⟩
  · rw [cpu_general dflt splitDim numSplit shape data aligned h0 h1 hn hdvd hn1
      hpath hP hS hU]
    refine congrArg Outcome.ok (List.map_congr_left ?_)
    intro i _
    rw [slice_if_eq32 dflt data _ _ _ i _ hout]
  · intro i
    rw [splitSliceData_length, set_prod shape _ _ hk]
  · intro i idx hlen hbound
    exact general_element dflt data shape splitDim.toNat hk _ i idx hlen hbound

theorem claim_C1_witness :
    ((0 : Int) ≤ 1 ∧ (1 : Int) < (([2, 6] : List Nat).length : Int) ∧
      (0 : Int) < 2 ∧
      ((([2, 6] : List Nat).getD (1 : Int).toNat 0 : Int) % 2 = 0) ∧
      (2 : Int) ≠ 1 ∧ ¬ ((1 : Int) = 0 ∧ false = true) ∧
      (([2, 6] : List Nat).take (1 : Int).toNat).prod < 2 ^ 31 ∧
      ([2, 6] : List Nat).getD (1 : Int).toNat 0 < 2 ^ 31 ∧
      (([2, 6] : List Nat).drop ((1 : Int).toNat + 1)).prod < 2 ^ 31 ∧
      (([2, 6] : List Nat).take (1 : Int).toNat).prod *
        (([2, 6] : List Nat).getD (1 : Int).toNat 0 / (2 : Int).toNat) *
        (([2, 6] : List Nat).drop ((1 : Int).toNat + 1)).prod < 2 ^ 31) ∧
    SplitOpCPU 0 1 2 [2, 6] (List.range 12) false =
      .ok [([2, 3], [0, 1, 2, 6, 7, 8]), ([2, 3], [3, 4, 5, 9, 10, 11])] :=
  ⟨⟨by decide, by decide, by decide, by decide, by decide, by decide, by decide,
      by decide, by decide, by decide⟩,
    ((claim_C1 0 1 2 [2, 6] (List.range 12) false (by decide) (by decide)
        (by decide) (by decide) (by decide) (by decide) (by decide) (by decide)
        (by decide) (by decide)).1).trans (by decide)⟩

/-- C8 (as stated) is false on the code: both executors evaluate the
int32 product of split_op.cc:148/:226 and disagree when it wraps
negative. For shape [32768, 65536, 2], split_dim 1, num_split 2 — all
per-axis collapsed sizes fit in int32 — the guard product
32768·32768·2 = 2^31 wraps to -2^31: the CPU executor (guard `> 0`
fails) skips every copy and leaves all outputs unwritten, while the GPU
executor (zero test `== 0` fails) launches the kernel and writes all
outputs — the results are not identical. -/
theorem claim_C8_counterexample :
    ((([32768, 65536, 2] : List Nat).take (1 : Int).toNat).prod < 2 ^ 31 ∧
      ([32768, 65536, 2] : List Nat).getD (1 : Int).toNat 0 < 2 ^ 31 ∧
      (([32768, 65536, 2] : List Nat).drop ((1 : Int).toNat + 1)).prod < 2 ^ 31) ∧
    SplitOpCPU (0 : Nat) 1 2 [32768, 65536, 2] ([] : List Nat) false ≠
      SplitOpGPU (0 : Nat) 1 2 [32768, 65536, 2] ([] : List Nat) false := by
  refine ⟨⟨by decide, by decide, by decide⟩, ?_⟩
  intro hcontra
  have hcpu : SplitOpCPU (0 : Nat) 1 2 [32768, 65536, 2] ([] : List Nat) false =
      .ok [([32768, 32768, 2], []), ([32768, 32768, 2], [])] := by
    decide
  have hgpu := gpu_general (0 : Nat) 1 2 [32768, 65536, 2] ([] : List Nat) false
    (by decide) (by decide) (by decide) (by decide) (by decide) (by decide)
    (by decide) (by decide) (by decide)
  rw [hcpu, hgpu] at hcontra
  have hg : ¬ (wrap32 (wrap32 (((([32768, 65536, 2] : List Nat).take
      (1 : Int).toNat).prod : Int) *
      ((([32768, 65536, 2] : List Nat).getD (1 : Int).toNat 0 /
        (2 : Int).toNat : Nat) : Int)) *
      (((([32768, 65536, 2] : List Nat).drop ((1 : Int).toNat + 1)).prod :
        Nat) : Int)) = 0) := by
    decide
  have h2 := Outcome.ok.inj hcontra
  have h3 := congrArg
    (fun l : List (List Nat × List Nat) => ((l.getD 0 ([], [])).2).length) h2
  simp only [List.getD_cons_zero, List.length_nil] at h3
  rw [getD_map_range _ _ _ (by decide : (0 : Nat) < (2 : Int).toNat)] at h3
  dsimp only at h3
  rw [if_neg hg] at h3
  rw [splitSliceData_length] at h3
  exact absurd h3 (by decide)

/-- C8 amended: for every input and parameters with the collapsed sizes
fitting in int32 and — forced by the int32 guard product of
split_op.cc:148/:226 — the per-output element count
prefix·per_split·suffix also fitting in int32, the CPU and GPU executors
produce identical outcomes: the same outputs with the same shapes and the
same element values in the same order (and identical error outcomes on
invalid input). -/
theorem claim_C8 {α : Type} (dflt : α) (splitDim numSplit : Int)
    (shape : List Nat) (data : List α) (aligned : Bool)
    (hP : (shape.take splitDim.toNat).prod < 2 ^ 31)
    (hS : shape.getD splitDim.toNat 0 < 2 ^ 31)
    (hU : (shape.drop (splitDim.toNat + 1)).prod < 2 ^ 31)
    (hout : (shape.take splitDim.toNat).prod *
        (shape.getD splitDim.toNat 0 / numSplit.toNat) *
        (shape.drop (splitDim.toNat + 1)).prod < 2 ^ 31) :
    SplitOpCPU dflt splitDim numSplit shape data aligned =
      SplitOpGPU dflt splitDim numSplit shape data aligned := by
  by_cases hv : ¬ (0 ≤ splitDim ∧ splitDim < (shape.length : Int)) ∨
      numSplit ≤ 0 ∨ (shape.getD splitDim.toNat 0 : Int) % numSplit ≠ 0
  · have he := easy_err splitDim numSplit shape data aligned hv
    unfold SplitOpCPU SplitOpGPU
    rw [he]
  · push_neg at hv
    obtain ⟨⟨h0, h1⟩, hn', hdvd⟩ := hv
    have hn : 0 < numSplit := by omega
    by_cases hid : numSplit = 1
    · subst hid
      have he := easy_identity splitDim shape data aligned h0 h1
      unfold SplitOpCPU SplitOpGPU
      rw [he]
    · by_cases hdim0 : splitDim = 0 ∧ aligned = true
      · obtain ⟨h0eq, haeq⟩ := hdim0
        subst h0eq
        subst haeq
        have he := easy_dim0 numSplit shape data (by exact_mod_cast h1)
          (by omega) hdvd
        unfold SplitOpCPU SplitOpGPU
        rw [he]
      · rw [cpu_general dflt splitDim numSplit shape data aligned h0 h1 hn hdvd
          hid hdim0 hP hS hU,
          gpu_general dflt splitDim numSplit shape data aligned h0 h1 hn hdvd
          hid hdim0 hP hS hU]
        refine congrArg Outcome.ok (List.map_congr_left ?_)
        intro i _
        rw [slice_if_eq32 dflt data _ _ _ i _ hout,
          gpu_slice_if_eq32 dflt data _ _ _ i _ hout]

theorem claim_C8_witness :
    ((([2, 6] : List Nat).take (1 : Int).toNat).prod < 2 ^ 31 ∧
      ([2, 6] : List Nat).getD (1 : Int).toNat 0 < 2 ^ 31 ∧
      (([2, 6] : List Nat).drop ((1 : Int).toNat + 1)).prod < 2 ^ 31 ∧
      (([2, 6] : List Nat).take (1 : Int).toNat).prod *
        (([2, 6] : List Nat).getD (1 : Int).toNat 0 / (2 : Int).toNat) *
        (([2, 6] : List Nat).drop ((1 : Int).toNat + 1)).prod < 2 ^ 31) ∧
    SplitOpCPU 0 1 2 [2, 6] (List.range 12) false =
      SplitOpGPU 0 1 2 [2, 6] (List.range 12) false :=
  ⟨⟨by decide, by decide, by decide, by decide⟩,
    claim_C8 0 1 2 [2, 6] (List.range 12) false (by decide) (by decide)
      (by decide) (by decide)⟩

/-- C7: a valid invocation with zero input elements completes without
error on both executors, producing all num_split outputs with the reduced
shape and no copied data (empty buffers; the copy primitive and the device
kernel write nothing). -/
theorem claim_C7 {α : Type} (dflt : α) (splitDim numSplit : Int)
    (shape : List Nat) (data : List α) (aligned : Bool)
    (h0 : 0 ≤ splitDim) (h1 : splitDim < (shape.length : Int))
    (hn : 0 < numSplit)
    (hdvd : (shape.getD splitDim.toNat 0 : Int) % numSplit = 0)
    (hzero : shape.prod = 0) (hwf : data.length = shape.prod)
    (hP : (shape.take splitDim.toNat).prod < 2 ^ 31)
    (hS : shape.getD splitDim.toNat 0 < 2 ^ 31)
    (hU : (shape.drop (splitDim.toNat + 1)).prod < 2 ^ 31) :
    SplitOpCPU dflt splitDim numSplit shape data aligned =
      .ok ((List.range numSplit.toNat).map fun _ =>
        (shape.set splitDim.toNat (shape.getD splitDim.toNat 0 / numSplit.toNat),
          ([] : List α))) ∧
    SplitOpGPU dflt splitDim numSplit shape data aligned =
      .ok ((List.range numSplit.toNat).map fun _ =>
        (shape.set splitDim.toNat (shape.getD splitDim.toNat 0 / numSplit.toNat),
          ([] : List α))) ∧
    (shape.set splitDim.toNat
      (shape.getD splitDim.toNat 0 / numSplit.toNat)).prod = 0 := by
  have hk : splitDim.toNat < shape.length := by omega
  have hdata : data = [] := by
    rw [← List.length_eq_zero, hwf, hzero]
  have hprod := prod_decomp shape splitDim.toNat hk
  have hdle : shape.getD splitDim.toNat 0 / numSplit.toNat ≤
      shape.getD splitDim.toNat 0 := Nat.div_le_self _ _
  have hout0 : (shape.take splitDim.toNat).prod *
      ((shape.getD splitDim.toNat 0 / numSplit.toNat) *
        (shape.drop (splitDim.toNat + 1)).prod) = 0 := by
    have hle : (shape.take splitDim.toNat).prod *
        ((shape.getD splitDim.toNat 0 / numSplit.toNat) *
          (shape.drop (splitDim.toNat + 1)).prod) ≤
        (shape.take splitDim.toNat).prod *
          (shape.getD splitDim.toNat 0 * (shape.drop (splitDim.toNat + 1)).prod) :=
      Nat.mul_le_mul_left _ (Nat.mul_le_mul_right _ hdle)
    omega
  have houtprod : (shape.set splitDim.toNat
      (shape.getD splitDim.toNat 0 / numSplit.toNat)).prod = 0 := by
    rw [set_prod shape _ _ hk]
    exact hout0
  have hzg : wrap32 (wrap32 (((shape.take splitDim.toNat).prod : Int) *
      ((shape.getD splitDim.toNat 0 / numSplit.toNat : Nat) : Int)) *
      (((shape.drop (splitDim.toNat + 1)).prod : Nat) : Int)) = 0 :=
    guard32_eq_zero _ _ _ (by rw [Nat.mul_assoc]; exact hout0)
  have hmap1 : (List.range (1 : Int).toNat).map
      (fun _ => (shape.set splitDim.toNat
        (shape.getD splitDim.toNat 0 / (1 : Int).toNat), ([] : List α))) =
      [(shape, ([] : List α))] := by
    have hsh : shape.set splitDim.toNat
        (shape.getD splitDim.toNat 0 / (1 : Int).toNat) = shape := by
      have ht : (1 : Int).toNat = 1 := rfl
      rw [ht, Nat.div_one, set_getD_self shape splitDim.toNat hk 0]
    rw [hsh]
    rfl
  refine ⟨?_, ?_, houtprod⟩
  · by_cases hid : numSplit = 1
    · subst hid
      have he := easy_identity splitDim shape data aligned h0 h1
      unfold SplitOpCPU
      rw [he]
      dsimp only
      rw [hmap1, hdata]
    · by_cases hdim0 : splitDim = 0 ∧ aligned = true
      · obtain ⟨h0eq, haeq⟩ := hdim0
        subst h0eq
        subst haeq
        have he := easy_dim0 numSplit shape data (by exact_mod_cast h1)
          (by omega) hdvd
        unfold SplitOpCPU
        rw [he]
        dsimp only
        simp only [Int.toNat_zero]
        refine congrArg Outcome.ok (List.map_congr_left ?_)
        intro i _
        obtain ⟨a, t, rfl⟩ := List.exists_cons_of_ne_nil
          (List.ne_nil_of_length_pos (l := shape) (by omega))
        unfold TensorSlice
        generalize (a :: t).getD 0 0 / numSplit.toNat = δ
        have hδ : (i + 1) * δ - i * δ = δ := by
          have h : (i + 1) * δ = i * δ + δ := by ring
          omega
        rw [hδ, hdata]
        simp
      · rw [cpu_general dflt splitDim numSplit shape data aligned h0 h1 hn hdvd
          hid hdim0 hP hS hU]
        refine congrArg Outcome.ok (List.map_congr_left ?_)
        intro i _
        rw [hzg, if_neg (lt_irrefl 0)]
  · by_cases hid : numSplit = 1
    · subst hid
      have he := easy_identity splitDim shape data aligned h0 h1
      unfold SplitOpGPU
      rw [he]
      dsimp only
      rw [hmap1, hdata]
    · by_cases hdim0 : splitDim = 0 ∧ aligned = true
      · obtain ⟨h0eq, haeq⟩ := hdim0
        subst h0eq
        subst haeq
        have he := easy_dim0 numSplit shape data (by exact_mod_cast h1)
          (by omega) hdvd
        unfold SplitOpGPU
        rw [he]
        dsimp only
        simp only [Int.toNat_zero]
        refine congrArg Outcome.ok (List.map_congr_left ?_)
        intro i _
        obtain ⟨a, t, rfl⟩ := List.exists_cons_of_ne_nil
          (List.ne_nil_of_length_pos (l := shape) (by omega))
        unfold TensorSlice
        generalize (a :: t).getD 0 0 / numSplit.toNat = δ
        have hδ : (i + 1) * δ - i * δ = δ := by
          have h : (i + 1) * δ = i * δ + δ := by ring
          omega
        rw [hδ, hdata]
        simp
      · rw [gpu_general dflt splitDim numSplit shape data aligned h0 h1 hn hdvd
          hid hdim0 hP hS hU]
        refine congrArg Outcome.ok (List.map_congr_left ?_)
        intro i _
        rw [hzg, if_pos rfl]

theorem claim_C7_witness :
    ((0 : Int) ≤ 0 ∧ (0 : Int) < (([0, 4] : List Nat).length : Int) ∧
      (0 : Int) < 2 ∧
      ((([0, 4] : List Nat).getD (0 : Int).toNat 0 : Int) % 2 = 0) ∧
      ([0, 4] : List Nat).prod = 0 ∧
      ([] : List Nat).length = ([0, 4] : List Nat).prod ∧
      (([0, 4] : List Nat).take (0 : Int).toNat).prod < 2 ^ 31 ∧
      ([0, 4] : List Nat).getD (0 : Int).toNat 0 < 2 ^ 31 ∧
      (([0, 4] : List Nat).drop ((0 : Int).toNat + 1)).prod < 2 ^ 31) ∧
    SplitOpCPU 0 0 2 [0, 4] ([] : List Nat) false =
      .ok [([0, 4], []), ([0, 4], [])] ∧
    SplitOpGPU 0 0 2 [0, 4] ([] : List Nat) false =
      .ok [([0, 4], []), ([0, 4], [])] :=
  ⟨⟨by decide, by decide, by decide, by decide, by decide, by decide, by decide,
      by decide, by decide⟩,
    ((claim_C7 0 0 2 [0, 4] ([] : List Nat) false (by decide) (by decide)
        (by decide) (by decide) (by decide) (by decide) (by decide) (by decide)
        (by decide)).1).trans (by decide),
    ((claim_C7 0 0 2 [0, 4] ([] : List Nat) false (by decide) (by decide)
        (by decide) (by decide) (by decide) (by decide) (by decide) (by decide)
        (by decide)).2.1).trans (by decide)⟩

/-- C2 (as stated) is false on the code: the int32 copy guard of
split_op.cc:148 (and the zero test of :226) wraps to 0 for shape
[65536, 65536, 4], split_dim 1, num_split 2 — a valid, evenly divisible
invocation whose per-axis collapsed sizes fit in int32 — so the program
writes nothing into the outputs and their concatenation (the empty list)
cannot reconstruct the 2^34-element input. -/
theorem claim_C2_counterexample :
    (List.replicate (65536 * 65536 * 4) (0 : Nat)).length =
      ([65536, 65536, 4] : List Nat).prod ∧
    ¬ ∃ outs,
      SplitOpCPU (0 : Nat) 1 2 [65536, 65536, 4]
        (List.replicate (65536 * 65536 * 4) (0 : Nat)) false = .ok outs ∧
      SplitOpGPU (0 : Nat) 1 2 [65536, 65536, 4]
        (List.replicate (65536 * 65536 * 4) (0 : Nat)) false = .ok outs ∧
      concatAlong ((([65536, 65536, 4] : List Nat).take (1 : Int).toNat).prod)
        (([65536, 65536, 4] : List Nat).getD (1 : Int).toNat 0 / (2 : Int).toNat)
        ((([65536, 65536, 4] : List Nat).drop ((1 : Int).toNat + 1)).prod)
        (outs.map Prod.snd) = List.replicate (65536 * 65536 * 4) (0 : Nat) := by
  constructor
  · rw [List.length_replicate]
    decide
  · rintro ⟨outs, hcpu, _, hcat⟩
    have h1 : SplitOpCPU (0 : Nat) 1 2 [65536, 65536, 4]
        (List.replicate (65536 * 65536 * 4) (0 : Nat)) false =
        .ok [([65536, 32768, 4], []), ([65536, 32768, 4], [])] := by
      decide
    rw [h1] at hcpu
    have houts : outs = [([65536, 32768, 4], []), ([65536, 32768, 4], [])] :=
      (Outcome.ok.inj hcpu).symm
    rw [houts] at hcat
    simp only [List.map_cons, List.map_nil] at hcat
    have hclen : (concatAlong
        ((([65536, 65536, 4] : List Nat).take (1 : Int).toNat).prod)
        (([65536, 65536, 4] : List Nat).getD (1 : Int).toNat 0 / (2 : Int).toNat)
        ((([65536, 65536, 4] : List Nat).drop ((1 : Int).toNat + 1)).prod)
        [([] : List Nat), []]).length = 0 := by
      unfold concatAlong
      rw [flatMap_length_const _ _ 0]
      · rw [Nat.mul_zero]
      · intro b _
        simp
    rw [hcat] at hclen
    rw [List.length_replicate] at hclen
    norm_num at hclen

/-- C2 amended: for every valid (shape, split_dim, num_split) with the
split-axis size evenly divisible and — forced by the int32 copy guard of
split_op.cc:148/:226 — the per-output element count
prefix·per_split·suffix fitting in int32, concatenating the outputs in
order along the split axis reconstructs the input exactly, on every path
(identity, dim-0 slice, general) and on both executors. -/
theorem claim_C2 {α : Type} (dflt : α) (splitDim numSplit : Int)
    (shape : List Nat) (data : List α) (aligned : Bool)
    (h0 : 0 ≤ splitDim) (h1 : splitDim < (shape.length : Int))
    (hn : 0 < numSplit)
    (hdvd : (shape.getD splitDim.toNat 0 : Int) % numSplit = 0)
    (hwf : data.length = shape.prod)
    (hP : (shape.take splitDim.toNat).prod < 2 ^ 31)
    (hS : shape.getD splitDim.toNat 0 < 2 ^ 31)
    (hU : (shape.drop (splitDim.toNat + 1)).prod < 2 ^ 31)
    (hout : (shape.take splitDim.toNat).prod *
        (shape.getD splitDim.toNat 0 / numSplit.toNat) *
        (shape.drop (splitDim.toNat + 1)).prod < 2 ^ 31) :
    ∃ outs,
      SplitOpCPU dflt splitDim numSplit shape data aligned = .ok outs ∧
      SplitOpGPU dflt splitDim numSplit shape data aligned = .ok outs ∧
      concatAlong ((shape.take splitDim.toNat).prod)
        (shape.getD splitDim.toNat 0 / numSplit.toNat)
        ((shape.drop (splitDim.toNat + 1)).prod)
        (outs.map Prod.snd) = data := by
  have hk : splitDim.toNat < shape.length := by omega
  have hdvdNat : numSplit.toNat ∣ shape.getD splitDim.toNat 0 := by
    have hcast : ((numSplit.toNat : Nat) : Int) = numSplit :=
      Int.toNat_of_nonneg (by omega)
    have hd : (numSplit : Int) ∣ ((shape.getD splitDim.toNat 0 : Nat) : Int) :=
      Int.dvd_of_emod_eq_zero hdvd
    rw [← hcast] at hd
    exact_mod_cast hd
  have hSeq : shape.getD splitDim.toNat 0 =
      numSplit.toNat * (shape.getD splitDim.toNat 0 / numSplit.toNat) :=
    (Nat.mul_div_cancel' hdvdNat).symm
  have hlen3 : data.length = (shape.take splitDim.toNat).prod *
      (shape.getD splitDim.toNat 0 * (shape.drop (splitDim.toNat + 1)).prod) := by
    rw [hwf]
    exact prod_decomp shape splitDim.toNat hk
  by_cases hid : numSplit = 1
  · subst hid
    have he := easy_identity splitDim shape data aligned h0 h1
    refine ⟨[(shape, data)], ?_, ?_, ?_⟩
    · unfold SplitOpCPU
      rw [he]
    · unfold SplitOpGPU
      rw [he]
    · have ht1 : (1 : Int).toNat = 1 := rfl
      rw [ht1, Nat.div_one]
      simp only [List.map_cons, List.map_nil]
      apply concat_blocks dflt data ((shape.take splitDim.toNat).prod)
        (shape.getD splitDim.toNat 0) ((shape.drop (splitDim.toNat + 1)).prod)
        (shape.getD splitDim.toNat 0) 1 (one_mul _).symm hlen3 [data] rfl
      · intro i hi
        have hi0 : i = 0 := by omega
        subst hi0
        have hget : ([data] : List (List α)).getD 0 [] = data := rfl
        rw [hget]
        exact hlen3
      · intro i p r hi hp hr
        have hi0 : i = 0 := by omega
        subst hi0
        have hget : ([data] : List (List α)).getD 0 [] = data := rfl
        rw [hget]
        congr 1
        ring
  · by_cases hdim0 : splitDim = 0 ∧ aligned = true
    · obtain ⟨h0eq, haeq⟩ := hdim0
      subst h0eq
      subst haeq
      have he := easy_dim0 numSplit shape data (by exact_mod_cast h1)
        (by omega) hdvd
      refine ⟨(List.range numSplit.toNat).map (fun i =>
        TensorSlice shape data (i * (shape.getD 0 0 / numSplit.toNat))
          ((i + 1) * (shape.getD 0 0 / numSplit.toNat))), ?_, ?_, ?_⟩
      · unfold SplitOpCPU
        rw [he]
      · unfold SplitOpGPU
        rw [he]
      · simp only [Int.toNat_zero, List.take_zero, List.prod_nil, Nat.zero_add]
        simp only [Int.toNat_zero, Nat.zero_add] at hSeq hlen3
        rw [List.map_map]
        set δ := shape.getD 0 0 / numSplit.toNat with hδdef
        clear_value δ
        have hdatalen : data.length =
            numSplit.toNat * (δ * (shape.drop 1).prod) := by
          rw [hlen3, List.take_zero, List.prod_nil, one_mul]
          conv_lhs => rw [hSeq]
          ring
        apply concat_blocks dflt data 1 (shape.getD 0 0) ((shape.drop 1).prod)
          δ numSplit.toNat hSeq (by rw [one_mul, hlen3]; simp) _ (by simp)
        · intro i hi
          rw [getD_map_range _ _ _ hi]
          dsimp only [Function.comp]
          unfold TensorSlice
          dsimp only
          have hδi : (i + 1) * δ - i * δ = δ := by
            have h : (i + 1) * δ = i * δ + δ := by ring
            omega
          rw [hδi, List.length_take, List.length_drop, hdatalen, one_mul]
          have e1 : i * δ * (shape.drop 1).prod = i * (δ * (shape.drop 1).prod) := by
            ring
          have e2 : (i + 1) * (δ * (shape.drop 1).prod) =
              i * (δ * (shape.drop 1).prod) + δ * (shape.drop 1).prod := by
            ring
          have e3 : (i + 1) * (δ * (shape.drop 1).prod) ≤
              numSplit.toNat * (δ * (shape.drop 1).prod) :=
            Nat.mul_le_mul_right _ (by omega)
          rw [e1]
          omega
        · intro i p r hi hp hr
          have hp0 : p = 0 := by omega
          subst hp0
          rw [getD_map_range _ _ _ hi]
          dsimp only [Function.comp]
          unfold TensorSlice
          dsimp only
          have hδi : (i + 1) * δ - i * δ = δ := by
            have h : (i + 1) * δ = i * δ + δ := by ring
            omega
          rw [hδi]
          simp only [Nat.zero_mul, Nat.zero_add]
          rw [getD_drop_take _ _ _ _ hr]
          congr 1
          ring
    · refine ⟨(List.range numSplit.toNat).map (fun i =>
        (shape.set splitDim.toNat (shape.getD splitDim.toNat 0 / numSplit.toNat),
          splitSliceData dflt data (shape.getD splitDim.toNat 0)
            ((shape.drop (splitDim.toNat + 1)).prod)
            (shape.getD splitDim.toNat 0 / numSplit.toNat) i
            ((shape.take splitDim.toNat).prod))), ?_, ?_, ?_⟩
      · rw [cpu_general dflt splitDim numSplit shape data aligned h0 h1 hn hdvd
          hid hdim0 hP hS hU]
        refine congrArg Outcome.ok (List.map_congr_left ?_)
        intro i _
        rw [slice_if_eq32 dflt data _ _ _ i _ hout]
      · rw [gpu_general dflt splitDim numSplit shape data aligned h0 h1 hn hdvd
          hid hdim0 hP hS hU]
        refine congrArg Outcome.ok (List.map_congr_left ?_)
        intro i _
        rw [gpu_slice_if_eq32 dflt data _ _ _ i _ hout]
      · rw [List.map_map]
        apply concat_blocks dflt data ((shape.take splitDim.toNat).prod)
          (shape.getD splitDim.toNat 0) ((shape.drop (splitDim.toNat + 1)).prod)
          (shape.getD splitDim.toNat 0 / numSplit.toNat) numSplit.toNat
          hSeq hlen3 _ (by simp)
        · intro i hi
          rw [getD_map_range _ _ _ hi]
          dsimp only [Function.comp]
          rw [splitSliceData_length]
        · intro i p r hi hp hr
          rw [getD_map_range _ _ _ hi]
          dsimp only [Function.comp]
          exact splitSliceData_getD_flat dflt data _ _ _ i _ hp hr

theorem claim_C2_witness :
    ((0 : Int) ≤ 1 ∧ (1 : Int) < (([2, 6] : List Nat).length : Int) ∧
      (0 : Int) < 2 ∧
      ((([2, 6] : List Nat).getD (1 : Int).toNat 0 : Int) % 2 = 0) ∧
      (List.range 12).length = ([2, 6] : List Nat).prod ∧
      (([2, 6] : List Nat).take (1 : Int).toNat).prod < 2 ^ 31 ∧
      ([2, 6] : List Nat).getD (1 : Int).toNat 0 < 2 ^ 31 ∧
      (([2, 6] : List Nat).drop ((1 : Int).toNat + 1)).prod < 2 ^ 31 ∧
      (([2, 6] : List Nat).take (1 : Int).toNat).prod *
        (([2, 6] : List Nat).getD (1 : Int).toNat 0 / (2 : Int).toNat) *
        (([2, 6] : List Nat).drop ((1 : Int).toNat + 1)).prod < 2 ^ 31) ∧
    (∃ outs,
      SplitOpCPU 0 1 2 [2, 6] (List.range 12) false = .ok outs ∧
      SplitOpGPU 0 1 2 [2, 6] (List.range 12) false = .ok outs ∧
      concatAlong ((([2, 6] : List Nat).take (1 : Int).toNat).prod)
        (([2, 6] : List Nat).getD (1 : Int).toNat 0 / (2 : Int).toNat)
        ((([2, 6] : List Nat).drop ((1 : Int).toNat + 1)).prod)
        (outs.map Prod.snd) = List.range 12) :=
  ⟨⟨by decide, by decide, by decide, by decide, by decide, by decide, by decide,
      by decide, by decide⟩,
    claim_C2 0 1 2 [2, 6] (List.range 12) false (by decide) (by decide)
      (by decide) (by decide) (by decide) (by decide) (by decide) (by decide)
      (by decide)⟩

/-! ### GPU host-side trace: staging-buffer lifetime (split_op.cc:209-243) -/

/-- Host-side actions of `SplitOpGPU::Compute` on the general path. -/
inductive GpuHostStep where
  /-- `allocate_temp` of the host-resident pointer staging buffer (l. 212). -/
  | allocHostPtrs : GpuHostStep
  /-- `allocate_temp` of the device-resident pointer buffer (l. 215). -/
  | allocDevPtrs : GpuHostStep
  /-- `allocate_output(i, ...)` and recording of its device pointer (l. 220-225). -/
  | allocOutput : Nat → GpuHostStep
  /-- `TensorReference tensor_ref(output_ptrs_on_host)` — takes a reference
  on the staging buffer (l. 232). -/
  | takeStagingRef : GpuHostStep
  /-- `stream->ThenMemcpy(...)` — enqueues the async host-to-device copy of
  the pointer array on the compute stream (l. 233). -/
  | enqueueMemcpyH2D : GpuHostStep
  /-- `event_mgr->ThenExecute(stream, [tensor_ref]() { tensor_ref.Unref(); })`
  — registers the completion callback that releases the staging buffer
  after the work already enqueued on the stream has completed (l. 236). -/
  | registerUnrefCallback : GpuHostStep
  /-- `SplitOpGPULaunch<T>().Run(...)` — the batched kernel launch (l. 238). -/
  | enqueueKernel : GpuHostStep
  /-- `OP_REQUIRES(context, stream->ok(), ...)` (l. 242). -/
  | checkStream : GpuHostStep
  deriving DecidableEq

/-- The host-side step sequence of the GPU general path with `n` outputs
and a nonzero output element count, in source order. -/
def gpuGeneralPathTrace (n : Nat) : List GpuHostStep :=
  [.allocHostPtrs, .allocDevPtrs] ++ (List.range n).map .allocOutput ++
    [.takeStagingRef, .enqueueMemcpyH2D, .registerUnrefCallback, .enqueueKernel,
      .checkStream]

/-- Whether a host step releases the staging buffer synchronously, as it
executes: no step does — the only `Unref` in the source is inside the
deferred callback handed to the event manager. -/
def stepReleasesStagingNow : GpuHostStep → Bool := fun _ => false

/-- The deferred callback registered by `registerUnrefCallback` is what
releases (`Unref`s) the staging buffer. -/
def callbackUnrefsStaging : Bool := true

/-- C9: on the GPU general path, the reference on the host staging buffer
is taken before the async memcpy is enqueued; the callback releasing it is
registered on the stream strictly after the memcpy (position n+4 vs n+3)
and at no earlier point; and no host step releases the buffer
synchronously — so under in-order stream execution the staging buffer
stays alive from the memcpy's enqueue until its completion, its release
happening only inside the completion callback. -/
theorem claim_C9 (n : Nat) :
    (gpuGeneralPathTrace n)[n + 2]? = some .takeStagingRef ∧
    (gpuGeneralPathTrace n)[n + 3]? = some .enqueueMemcpyH2D ∧
    (gpuGeneralPathTrace n)[n + 4]? = some .registerUnrefCallback ∧
    (∀ j, j ≤ n + 3 →
      (gpuGeneralPathTrace n)[j]? ≠ some .registerUnrefCallback) ∧
    (∀ s ∈ gpuGeneralPathTrace n, stepReleasesStagingNow s = false) ∧
    callbackUnrefsStaging = true := by
  have hmap_len : ((List.range n).map GpuHostStep.allocOutput).length = n := by
    simp
  have htail : ∀ m : Nat, (gpuGeneralPathTrace n)[n + 2 + m]? =
      ([GpuHostStep.takeStagingRef, .enqueueMemcpyH2D, .registerUnrefCallback,
        .enqueueKernel, .checkStream] : List GpuHostStep)[m]? := by
    intro m
    unfold gpuGeneralPathTrace
    simp only [List.cons_append, List.nil_append]
    have he : n + 2 + m = (n + m + 1) + 1 := by omega
    rw [he, List.getElem?_cons_succ, List.getElem?_cons_succ,
      List.getElem?_append_right (by rw [hmap_len]; omega), hmap_len]
    congr 1
    omega
  have h2 : (gpuGeneralPathTrace n)[n + 2]? = some .takeStagingRef := htail 0
  have h3 : (gpuGeneralPathTrace n)[n + 3]? = some .enqueueMemcpyH2D := htail 1
  have h4 : (gpuGeneralPathTrace n)[n + 4]? = some .registerUnrefCallback :=
    htail 2
  have hearly : ∀ j, j ≤ n + 3 →
      (gpuGeneralPathTrace n)[j]? ≠ some .registerUnrefCallback := by
    intro j hj hcontra
    by_cases hj2 : j < n + 2
    · have hmem : GpuHostStep.registerUnrefCallback ∈
          ([GpuHostStep.allocHostPtrs, GpuHostStep.allocDevPtrs] ++
            (List.range n).map GpuHostStep.allocOutput) := by
        unfold gpuGeneralPathTrace at hcontra
        rw [List.getElem?_append_left (by simp; omega)] at hcontra
        exact List.getElem?_mem hcontra
      rcases List.mem_append.mp hmem with hmem1 | hmem2
      · simp at hmem1
      · obtain ⟨i, _, hi2⟩ := List.mem_map.mp hmem2
        exact GpuHostStep.noConfusion hi2
    · have hj34 : j = n + 2 ∨ j = n + 3 := by omega
      rcases hj34 with rfl | rfl
      · rw [h2] at hcontra
        exact GpuHostStep.noConfusion (Option.some.inj hcontra)
      · rw [h3] at hcontra
        exact GpuHostStep.noConfusion (Option.some.inj hcontra)
  exact ⟨h2, h3, h4, hearly, fun s _ => rfl, rfl⟩

theorem claim_C9_witness :
    (gpuGeneralPathTrace 2)[5]? = some .enqueueMemcpyH2D ∧
    (5 ≤ 5 ∧ (gpuGeneralPathTrace 2)[5]? ≠ some .registerUnrefCallback) :=
  ⟨(claim_C9 2).2.1, by decide, (claim_C9 2).2.2.2.1 5 (by decide)⟩

example :
    SplitOpCPU 0 1 2 [2, 6] (List.range 12) false =
      .ok [([2, 3], [0, 1, 2, 6, 7, 8]), ([2, 3], [3, 4, 5, 9, 10, 11])] := by
  decide

example :
    SplitOpGPU 0 1 2 [2, 6] (List.range 12) false =
      .ok [([2, 3], [0, 1, 2, 6, 7, 8]), ([2, 3], [3, 4, 5, 9, 10, 11])] := by
  decide

example : SplitOpCPU 0 (-1) 2 [2, 6] (List.range 12) false = .invalidArgument := by
  decide

example :
    SplitOpCPU 0 0 3 [6, 2] (List.range 12) true =
      .ok [([2, 2], [0, 1, 2, 3]), ([2, 2], [4, 5, 6, 7]), ([2, 2], [8, 9, 10, 11])] := by
  decide

example : SplitOpCPU 0 0 1 [3] [5, 6, 7] true = .ok [([3], [5, 6, 7])] := by
  decide

example : SetDims [65536, 65536, 3] 2 = (0, 3, 1) := by decide

end SplitOp
